import Mathlib

/-!
Verification of the ledger posting and reversal engine of the `idil` sales
module.  The definitions below are a shallow embedding of the Python source
(`src/idil/models/sales.py`, `sale_return.py`, `sales_receipt.py`,
`sales_receipt_bulk_payment.py`): monetary amounts are modelled as rationals,
records as structures, ORM searches as list filters, and fallible flows as
`Except` / result-pairs carrying an optional error.
-/

namespace Idil

/-- Chart-of-accounts entry: only the identity and the currency matter to the
posting logic (currencies are compared by id). -/
structure Account where
  id : Nat
  currency : Nat
deriving DecidableEq

/-- Product master data used by the posting builder.  Accounts that may be
unset on a product are `Option`; `bom_currency_usd` models the test
`bom_currency.name == "USD"` (bom currency, falling back to the product
currency, as in the source). -/
structure Product where
  id : Nat
  cost : Rat
  commission : Rat
  discount : Rat
  is_sales_commissionable : Bool
  is_quantity_discount : Bool
  bom_currency_usd : Bool
  account_cogs_id : Option Account
  asset_account_id : Option Account
  income_account_id : Option Account
  sales_account_id : Option Account
  sales_discount_id : Option Account
deriving DecidableEq

/-- Sale order line with its stored (possibly manually overridden) computed
fields.  `commission_amount` has an inverse method in the source, so its value
is not forced to equal the compute formula. -/
structure SaleOrderLine where
  product : Product
  quantity : Rat
  price_unit : Rat
  discount_quantity : Rat
  discount_amount : Rat
  commission_amount : Rat
  subtotal : Rat
deriving DecidableEq

/-- Sale order header as seen by `book_accounting_entry`:
`account_receivable` is the salesperson's receivable account and
`trx_source_exists` models the search for the "Sales Order" transaction
source. -/
structure SaleOrder where
  account_receivable : Option Account
  rate : Rat
  trx_source_exists : Bool
  order_lines : List SaleOrderLine
deriving DecidableEq

/-- Direction of a ledger line (`transaction_type` in the source). -/
inductive TrxType where
  | dr
  | cr
deriving DecidableEq

/-- One `idil.transaction_bookingline` record: account id, direction, and the
two amount columns. -/
structure BookingLine where
  account : Nat
  transaction_type : TrxType
  dr_amount : Rat
  cr_amount : Rat
deriving DecidableEq

/-- Validation errors raised by `book_accounting_entry`. -/
inductive PostErr where
  | no_receivable
  | no_trx_source
  | commission_account_missing (productId : Nat)
  | commission_currency_mismatch (productId expected actual : Nat)
  | discount_account_missing (productId : Nat)
  | discount_currency_mismatch (productId expected actual : Nat)
  | asset_account_missing (productId : Nat)
  | asset_currency_mismatch (productId expected actual : Nat)
  | income_account_missing (productId : Nat)
  | income_currency_mismatch (productId expected actual : Nat)
deriving DecidableEq

/-- Account id as stored on a booking line; a missing many2one browses to an
empty record whose id is falsy, modelled as 0. -/
def acctId (a : Option Account) : Nat :=
  (a.map Account.id).getD 0

/-- Cost leg amount for a sale order line: `product.cost * quantity`,
multiplied by the order's exchange rate when the bom currency is USD
(sales.py lines 331-342). -/
def product_cost_amount (rate : Rat) (l : SaleOrderLine) : Rat :=
  let amount_in_bom_currency := l.product.cost * l.quantity
  if l.product.bom_currency_usd then amount_in_bom_currency * rate
  else amount_in_bom_currency

/-- Commission account check of `book_accounting_entry` (sales.py lines
351-361): required to exist and match the expected currency only when the
line carries a positive commission amount. -/
def check_commission_account (expected : Nat) (l : SaleOrderLine) :
    Except PostErr Unit :=
  if 0 < l.commission_amount then
    match l.product.sales_account_id with
    | none => .error (.commission_account_missing l.product.id)
    | some a =>
        if a.currency ≠ expected then
          .error (.commission_currency_mismatch l.product.id expected a.currency)
        else .ok ()
  else .ok ()

/-- Discount account check of `book_accounting_entry` (sales.py lines
363-373): required to exist and match the expected currency only when the
line carries a positive discount amount. -/
def check_discount_account (expected : Nat) (l : SaleOrderLine) :
    Except PostErr Unit :=
  if 0 < l.discount_amount then
    match l.product.sales_discount_id with
    | none => .error (.discount_account_missing l.product.id)
    | some a =>
        if a.currency ≠ expected then
          .error (.discount_currency_mismatch l.product.id expected a.currency)
        else .ok ()
  else .ok ()

/-- Asset account check of `book_accounting_entry` (sales.py lines
375-384): always required to exist and match the expected currency. -/
def check_asset_account (expected : Nat) (l : SaleOrderLine) :
    Except PostErr Unit :=
  match l.product.asset_account_id with
  | none => .error (.asset_account_missing l.product.id)
  | some a =>
      if a.currency ≠ expected then
        .error (.asset_currency_mismatch l.product.id expected a.currency)
      else .ok ()

/-- Income account check of `book_accounting_entry` (sales.py lines
386-395): always required to exist and match the expected currency. -/
def check_income_account (expected : Nat) (l : SaleOrderLine) :
    Except PostErr Unit :=
  match l.product.income_account_id with
  | none => .error (.income_account_missing l.product.id)
  | some a =>
      if a.currency ≠ expected then
        .error (.income_currency_mismatch l.product.id expected a.currency)
      else .ok ()

/-- Per-line account validations of `book_accounting_entry`, in source order
(sales.py lines 350-395).  The COGS account is referenced by the booking but
never validated, mirroring the source. -/
def check_line_accounts (expected : Nat) (l : SaleOrderLine) :
    Except PostErr Unit := do
  check_commission_account expected l
  check_discount_account expected l
  check_asset_account expected l
  check_income_account expected l

/-- Booking lines emitted for one sale order line (sales.py lines 396-491):
debit COGS / credit asset at cost, debit receivable at subtotal, credit income
at subtotal + commission + discount, then a commission debit only when the
product is commissionable and the commission amount is positive, and a
discount debit only when the discount amount is positive. -/
def sale_line_booking_lines (recvId : Nat) (rate : Rat) (l : SaleOrderLine) :
    List BookingLine :=
  let cost := product_cost_amount rate l
  [⟨acctId l.product.account_cogs_id, .dr, cost, 0⟩,
   ⟨acctId l.product.asset_account_id, .cr, 0, cost⟩,
   ⟨recvId, .dr, l.subtotal, 0⟩,
   ⟨acctId l.product.income_account_id, .cr, 0,
     l.subtotal + l.commission_amount + l.discount_amount⟩]
  ++ (if l.product.is_sales_commissionable ∧ 0 < l.commission_amount then
        [⟨acctId l.product.sales_account_id, .dr, l.commission_amount, 0⟩]
      else [])
  ++ (if 0 < l.discount_amount then
        [⟨acctId l.product.sales_discount_id, .dr, l.discount_amount, 0⟩]
      else [])

/-- Sequential per-line validation and emission, mirroring the loop body of
`book_accounting_entry`. -/
def book_lines_go (expected recvId : Nat) (rate : Rat) :
    List SaleOrderLine → Except PostErr (List BookingLine)
  | [] => .ok []
  | l :: ls => do
      check_line_accounts expected l
      let rest ← book_lines_go expected recvId rate ls
      .ok (sale_line_booking_lines recvId rate l ++ rest)

/-- `SaleOrder.book_accounting_entry` (sales.py lines 284-491): require the
salesperson's receivable account, derive the expected currency from it,
require the "Sales Order" transaction source, then validate and post every
order line. -/
def book_accounting_entry (o : SaleOrder) :
    Except PostErr (List BookingLine) :=
  match o.account_receivable with
  | none => .error .no_receivable
  | some recv =>
      if o.trx_source_exists then
        book_lines_go recv.currency recv.id o.rate o.order_lines
      else .error .no_trx_source

/-- Total of the debit column of a booking's lines. -/
def sum_dr (ls : List BookingLine) : Rat :=
  (ls.map BookingLine.dr_amount).sum

/-- Total of the credit column of a booking's lines. -/
def sum_cr (ls : List BookingLine) : Rat :=
  (ls.map BookingLine.cr_amount).sum

/-- Document lifecycle state. -/
inductive DocState where
  | draft
  | confirmed
  | cancelled
deriving DecidableEq

/-- Sale return line (`idil.sale.return.line`): record id, product, original
sold quantity snapshot, returned quantity, unit price, and the stored
`subtotal` compute (`returned_quantity * price_unit`). -/
structure SaleReturnLine where
  id : Nat
  product : Product
  quantity : Rat
  returned_quantity : Rat
  price_unit : Rat
  subtotal : Rat
deriving DecidableEq

/-- Sale return header (`idil.sale.return`). -/
structure SaleReturn where
  id : Nat
  sale_order_id : Nat
  state : DocState
  account_receivable : Option Account
  rate : Rat
  trx_source_exists : Bool
  return_lines : List SaleReturnLine
deriving DecidableEq

/-- Discount quantity recomputed inside the return booking loop
(sale_return.py lines 173-178). -/
def return_discount_quantity (l : SaleReturnLine) : Rat :=
  if l.product.is_quantity_discount then
    l.product.discount / 100 * l.returned_quantity
  else 0

/-- Discount amount recomputed inside the return booking loop. -/
def return_discount_amount (l : SaleReturnLine) : Rat :=
  return_discount_quantity l * l.price_unit

/-- Commission amount recomputed inside the return booking loop
(sale_return.py lines 180-184); note it uses the product's commission rate
regardless of the commissionable flag. -/
def return_commission_amount (l : SaleReturnLine) : Rat :=
  (l.returned_quantity - return_discount_quantity l) * l.product.commission
    * l.price_unit

/-- Net subtotal recomputed inside the return booking loop
(sale_return.py lines 186-190). -/
def return_line_subtotal (l : SaleReturnLine) : Rat :=
  l.returned_quantity * l.price_unit
    - return_discount_quantity l * l.price_unit
    - return_commission_amount l

/-- Cost leg amount for a return line, with the same USD-rate rule as the
sale posting (sale_return.py lines 192-203). -/
def return_cost_amount (rate : Rat) (l : SaleReturnLine) : Rat :=
  let amount_in_bom_currency := l.product.cost * l.returned_quantity
  if l.product.bom_currency_usd then amount_in_bom_currency * rate
  else amount_in_bom_currency

/-- Errors raised by `book_sales_return_entry` before any line is posted. -/
inductive RetPostErr where
  | no_receivable
  | no_trx_source
deriving DecidableEq

/-- Booking lines emitted for one return line (sale_return.py lines 205-303):
the sale posting with debit and credit roles swapped — credit COGS / debit
asset at cost, credit receivable at the recomputed subtotal, debit income at
subtotal + discount + commission, then a commission credit only when the
product is commissionable and the recomputed commission is positive, and a
discount credit only when the recomputed discount is positive. -/
def return_line_booking_lines (recvId : Nat) (rate : Rat)
    (l : SaleReturnLine) : List BookingLine :=
  let cost := return_cost_amount rate l
  let disc := return_discount_amount l
  let comm := return_commission_amount l
  let sub := return_line_subtotal l
  [⟨acctId l.product.account_cogs_id, .cr, 0, cost⟩,
   ⟨acctId l.product.asset_account_id, .dr, cost, 0⟩,
   ⟨recvId, .cr, 0, sub⟩,
   ⟨acctId l.product.income_account_id, .dr, sub + disc + comm, 0⟩]
  ++ (if l.product.is_sales_commissionable ∧ 0 < comm then
        [⟨acctId l.product.sales_account_id, .cr, 0, comm⟩]
      else [])
  ++ (if 0 < disc then
        [⟨acctId l.product.sales_discount_id, .cr, 0, disc⟩]
      else [])

/-- `SaleReturn.book_sales_return_entry` booking-line emission
(sale_return.py lines 137-350): require the receivable account and the
"Sales Return" transaction source, then post every return line.  Unlike the
sale posting, the loop performs no account or currency validation. -/
def book_sales_return_entry (r : SaleReturn) :
    Except RetPostErr (List BookingLine) :=
  match r.account_receivable with
  | none => .error .no_receivable
  | some recv =>
      if r.trx_source_exists then
        .ok ((r.return_lines.map (return_line_booking_lines recv.id r.rate)).flatten)
      else .error .no_trx_source

/-- Debit totals distribute over list append. -/
theorem sum_dr_append (xs ys : List BookingLine) :
    sum_dr (xs ++ ys) = sum_dr xs + sum_dr ys := by
  simp [sum_dr]

/-- Credit totals distribute over list append. -/
theorem sum_cr_append (xs ys : List BookingLine) :
    sum_cr (xs ++ ys) = sum_cr xs + sum_cr ys := by
  simp [sum_cr]

/-- Booking lines for one sale order line balance exactly, provided the stored
commission amount is nonnegative and only commissionable products carry a
positive commission, and the discount amount is nonnegative. -/
theorem sale_line_balanced (recvId : Nat) (rate : Rat) (l : SaleOrderLine)
    (hc0 : 0 ≤ l.commission_amount)
    (hc : 0 < l.commission_amount → l.product.is_sales_commissionable)
    (hd : 0 ≤ l.discount_amount) :
    sum_dr (sale_line_booking_lines recvId rate l) =
      sum_cr (sale_line_booking_lines recvId rate l) := by
  have hcases : (l.product.is_sales_commissionable = true ∧
      0 < l.commission_amount) ∨ l.commission_amount = 0 := by
    rcases hc0.lt_or_eq with hcp | hcz
    · exact Or.inl ⟨hc hcp, hcp⟩
    · exact Or.inr hcz.symm
  have hdcases : 0 < l.discount_amount ∨ l.discount_amount = 0 := by
    rcases hd.lt_or_eq with hdp | hdz
    · exact Or.inl hdp
    · exact Or.inr hdz.symm
  simp only [sale_line_booking_lines, sum_dr, sum_cr, List.map_append,
    List.sum_append, List.map_cons, List.sum_cons, List.map_nil,
    List.sum_nil]
  rcases hcases with ⟨hflag, hcp⟩ | hcz
  · rcases hdcases with hdp | hdz
    · simp [hflag, hcp, hdp] <;> ring
    · simp [hflag, hcp, hdz] <;> ring
  · rcases hdcases with hdp | hdz
    · simp [hcz, hdp, lt_irrefl] <;> ring
    · simp [hcz, hdz, lt_irrefl] <;> ring

/-- Booking lines for one sale return line balance exactly, provided the
recomputed commission is nonnegative and only commissionable products carry a
positive commission, and the recomputed discount is nonnegative. -/
theorem return_line_balanced (recvId : Nat) (rate : Rat) (l : SaleReturnLine)
    (hc0 : 0 ≤ return_commission_amount l)
    (hc : 0 < return_commission_amount l → l.product.is_sales_commissionable)
    (hd : 0 ≤ return_discount_amount l) :
    sum_dr (return_line_booking_lines recvId rate l) =
      sum_cr (return_line_booking_lines recvId rate l) := by
  have hcases : (l.product.is_sales_commissionable = true ∧
      0 < return_commission_amount l) ∨ return_commission_amount l = 0 := by
    rcases hc0.lt_or_eq with hcp | hcz
    · exact Or.inl ⟨hc hcp, hcp⟩
    · exact Or.inr hcz.symm
  have hdcases : 0 < return_discount_amount l ∨ return_discount_amount l = 0 := by
    rcases hd.lt_or_eq with hdp | hdz
    · exact Or.inl hdp
    · exact Or.inr hdz.symm
  simp only [return_line_booking_lines, sum_dr, sum_cr, List.map_append,
    List.sum_append, List.map_cons, List.sum_cons, List.map_nil,
    List.sum_nil]
  rcases hcases with ⟨hflag, hcp⟩ | hcz
  · rcases hdcases with hdp | hdz
    · simp [hflag, hcp, hdp] <;> ring
    · simp [hflag, hcp, hdz] <;> ring
  · rcases hdcases with hdp | hdz
    · simp [hcz, hdp, lt_irrefl] <;> ring
    · simp [hcz, hdz, lt_irrefl] <;> ring

/-- Fold-level balance for the sale posting loop: whatever list of booking
lines `book_lines_go` emits is balanced when every order line satisfies the
commission/discount side conditions. -/
theorem book_lines_go_balanced (expected recvId : Nat) (rate : Rat)
    (ls : List SaleOrderLine) (out : List BookingLine)
    (h : book_lines_go expected recvId rate ls = .ok out)
    (hl : ∀ l ∈ ls, 0 ≤ l.commission_amount ∧
      (0 < l.commission_amount → l.product.is_sales_commissionable) ∧
      0 ≤ l.discount_amount) :
    sum_dr out = sum_cr out := by
  induction ls generalizing out with
  | nil =>
      simp only [book_lines_go, Except.ok.injEq] at h
      subst h
      simp [sum_dr, sum_cr]
  | cons l ls ih =>
      simp only [book_lines_go, bind, Except.bind] at h
      cases hchk : check_line_accounts expected l with
      | error e => rw [hchk] at h; cases h
      | ok u =>
          rw [hchk] at h
          cases hrec : book_lines_go expected recvId rate ls with
          | error e => rw [hrec] at h; cases h
          | ok rest =>
              rw [hrec] at h
              simp only [Except.ok.injEq] at h
              subst h
              have hhead := hl l (List.mem_cons_self l ls)
              have htail := ih rest hrec (fun x hx => hl x (List.mem_cons_of_mem l hx))
              rw [sum_dr_append, sum_cr_append, htail,
                sale_line_balanced recvId rate l hhead.1 hhead.2.1 hhead.2.2]

/-- Balance of the flattened return booking lines, by induction over the
return lines. -/
theorem return_lines_flatten_balanced (recvId : Nat) (rate : Rat)
    (ls : List SaleReturnLine)
    (hl : ∀ l ∈ ls, 0 ≤ return_commission_amount l ∧
      (0 < return_commission_amount l → l.product.is_sales_commissionable) ∧
      0 ≤ return_discount_amount l) :
    sum_dr ((ls.map (return_line_booking_lines recvId rate)).flatten) =
      sum_cr ((ls.map (return_line_booking_lines recvId rate)).flatten) := by
  induction ls with
  | nil => simp [sum_dr, sum_cr]
  | cons l ls ih =>
      have hhead := hl l (List.mem_cons_self l ls)
      have htail := ih (fun x hx => hl x (List.mem_cons_of_mem l hx))
      simp only [List.map_cons, List.flatten_cons]
      rw [sum_dr_append, sum_cr_append, htail,
        return_line_balanced recvId rate l hhead.1 hhead.2.1 hhead.2.2]

/-- C1 (amended).  Every `LedgerBooking` produced by posting a sale order
(`book_accounting_entry`) or confirming a sale return
(`book_sales_return_entry`) whose lines satisfy the posting preconditions has
`sum(dr_amount) = sum(cr_amount)` (hence within ε = 0.01), provided every
line's commission amount is nonnegative and positive only on a product
flagged commissionable, and every line's discount amount is nonnegative.
When a line carries a positive commission amount on a non-commissionable
product, the income credit embeds the commission but no commission debit is
emitted and the booking does not balance (see the counterexample). -/
theorem c1_booking_balanced_amended :
    (∀ (o : SaleOrder) (out : List BookingLine),
        book_accounting_entry o = .ok out →
        (∀ l ∈ o.order_lines, 0 ≤ l.commission_amount ∧
          (0 < l.commission_amount → l.product.is_sales_commissionable) ∧
          0 ≤ l.discount_amount) →
        sum_dr out = sum_cr out ∧ |sum_dr out - sum_cr out| ≤ 1 / 100) ∧
    (∀ (r : SaleReturn) (out : List BookingLine),
        book_sales_return_entry r = .ok out →
        (∀ l ∈ r.return_lines, 0 ≤ return_commission_amount l ∧
          (0 < return_commission_amount l → l.product.is_sales_commissionable) ∧
          0 ≤ return_discount_amount l) →
        sum_dr out = sum_cr out ∧ |sum_dr out - sum_cr out| ≤ 1 / 100) := by
  constructor
  · intro o out h hl
    unfold book_accounting_entry at h
    split at h
    · cases h
    · rename_i recv hrecv
      split at h
      · have heq := book_lines_go_balanced recv.currency recv.id o.rate
          o.order_lines out h hl
        exact ⟨heq, by rw [heq]; simp⟩
      · cases h
  · intro r out h hl
    unfold book_sales_return_entry at h
    split at h
    · cases h
    · rename_i recv hrecv
      split at h
      · simp only [Except.ok.injEq] at h
        subst h
        have heq := return_lines_flatten_balanced recv.id r.rate
          r.return_lines hl
        exact ⟨heq, by rw [heq]; simp⟩
      · cases h

/-- Product used in the C1 counterexample: not commissionable, yet its order
line carries a positive stored commission amount (the field has an inverse
method, so manual values are reachable).  All validated accounts exist and
share currency 5, so the posting preconditions pass. -/
def c1x_product : Product where
  id := 7
  cost := 3
  commission := 0
  discount := 0
  is_sales_commissionable := false
  is_quantity_discount := false
  bom_currency_usd := false
  account_cogs_id := some ⟨1, 5⟩
  asset_account_id := some ⟨2, 5⟩
  income_account_id := some ⟨3, 5⟩
  sales_account_id := some ⟨4, 5⟩
  sales_discount_id := none

/-- Order line for the C1 counterexample: quantity 1 at price 10, manual
commission 1, so the stored subtotal compute gives 10 - 0 - 1 = 9. -/
def c1x_line : SaleOrderLine where
  product := c1x_product
  quantity := 1
  price_unit := 10
  discount_quantity := 0
  discount_amount := 0
  commission_amount := 1
  subtotal := 9

/-- Sale order for the C1 counterexample. -/
def c1x_order : SaleOrder where
  account_receivable := some ⟨9, 5⟩
  rate := 1
  trx_source_exists := true
  order_lines := [c1x_line]

/-- Booking lines the posting builder emits for `c1x_order`. -/
def c1x_out : List BookingLine :=
  [⟨1, .dr, 3, 0⟩, ⟨2, .cr, 0, 3⟩, ⟨9, .dr, 9, 0⟩, ⟨3, .cr, 0, 10⟩]

/-- C1 counterexample: posting `c1x_order` passes all preconditions and
produces a booking whose credits exceed its debits by the commission amount 1,
far outside ε = 0.01 — so the claim fails exactly in the advertised case of a
positive commission amount on a non-commissionable product. -/
theorem c1_counterexample :
    book_accounting_entry c1x_order = .ok c1x_out ∧
    0 < c1x_line.commission_amount ∧
    c1x_line.product.is_sales_commissionable = false ∧
    sum_cr c1x_out - sum_dr c1x_out = 1 ∧
    ¬ |sum_dr c1x_out - sum_cr c1x_out| ≤ 1 / 100 := by
  refine ⟨?_, by norm_num [c1x_line], by norm_num [c1x_line, c1x_product],
    by norm_num [c1x_out, sum_cr, sum_dr],
    by norm_num [c1x_out, sum_cr, sum_dr]⟩
  norm_num [c1x_order, c1x_line, c1x_product, c1x_out, book_accounting_entry,
    book_lines_go, check_line_accounts, check_commission_account,
    check_discount_account, check_asset_account, check_income_account,
    sale_line_booking_lines, product_cost_amount, acctId, bind, Except.bind,
    pure, Except.pure]

/-- Product used in the C1 witness: plain product, no commission or discount,
all accounts in currency 5. -/
def c1w_product : Product where
  id := 8
  cost := 3
  commission := 0
  discount := 0
  is_sales_commissionable := false
  is_quantity_discount := false
  bom_currency_usd := false
  account_cogs_id := some ⟨1, 5⟩
  asset_account_id := some ⟨2, 5⟩
  income_account_id := some ⟨3, 5⟩
  sales_account_id := none
  sales_discount_id := none

/-- Order line for the C1 witness: 10 units at price 5, cost 3. -/
def c1w_line : SaleOrderLine where
  product := c1w_product
  quantity := 10
  price_unit := 5
  discount_quantity := 0
  discount_amount := 0
  commission_amount := 0
  subtotal := 50

/-- Sale order for the C1 witness. -/
def c1w_order : SaleOrder where
  account_receivable := some ⟨9, 5⟩
  rate := 1
  trx_source_exists := true
  order_lines := [c1w_line]

/-- Booking lines posted for `c1w_order`. -/
def c1w_out : List BookingLine :=
  [⟨1, .dr, 30, 0⟩, ⟨2, .cr, 0, 30⟩, ⟨9, .dr, 50, 0⟩, ⟨3, .cr, 0, 50⟩]

/-- Return line for the C1 witness: 4 of the 10 units returned. -/
def c1w_rline : SaleReturnLine where
  id := 1
  product := c1w_product
  quantity := 10
  returned_quantity := 4
  price_unit := 5
  subtotal := 20

/-- Sale return for the C1 witness. -/
def c1w_return : SaleReturn where
  id := 1
  sale_order_id := 1
  state := .draft
  account_receivable := some ⟨9, 5⟩
  rate := 1
  trx_source_exists := true
  return_lines := [c1w_rline]

/-- Booking lines posted for `c1w_return`. -/
def c1w_rout : List BookingLine :=
  [⟨1, .cr, 0, 12⟩, ⟨2, .dr, 12, 0⟩, ⟨9, .cr, 0, 20⟩, ⟨3, .dr, 20, 0⟩]

/-- Witness for C1 (amended): the amended balance theorem applied to a
concrete sale order and a concrete sale return whose postings succeed. -/
theorem c1_booking_balanced_amended_witness :
    book_accounting_entry c1w_order = .ok c1w_out ∧
    (sum_dr c1w_out = sum_cr c1w_out ∧
      |sum_dr c1w_out - sum_cr c1w_out| ≤ 1 / 100) ∧
    book_sales_return_entry c1w_return = .ok c1w_rout ∧
    (sum_dr c1w_rout = sum_cr c1w_rout ∧
      |sum_dr c1w_rout - sum_cr c1w_rout| ≤ 1 / 100) := by
  have h1 : book_accounting_entry c1w_order = .ok c1w_out := by
    norm_num [c1w_order, c1w_line, c1w_product, c1w_out, book_accounting_entry,
      book_lines_go, check_line_accounts, check_commission_account,
      check_discount_account, check_asset_account, check_income_account,
      sale_line_booking_lines, product_cost_amount, acctId, bind, Except.bind,
      pure, Except.pure]
  have h2 : book_sales_return_entry c1w_return = .ok c1w_rout := by
    norm_num [c1w_return, c1w_rline, c1w_product, c1w_rout,
      book_sales_return_entry, return_line_booking_lines, return_cost_amount,
      return_line_subtotal, return_commission_amount, return_discount_amount,
      return_discount_quantity, acctId]
  have hl1 : ∀ l ∈ c1w_order.order_lines, 0 ≤ l.commission_amount ∧
      (0 < l.commission_amount → l.product.is_sales_commissionable) ∧
      0 ≤ l.discount_amount := by
    intro l hl
    simp only [c1w_order, List.mem_singleton] at hl
    subst hl
    refine ⟨by norm_num [c1w_line], ?_, by norm_num [c1w_line]⟩
    intro h
    norm_num [c1w_line] at h
  have hl2 : ∀ l ∈ c1w_return.return_lines, 0 ≤ return_commission_amount l ∧
      (0 < return_commission_amount l → l.product.is_sales_commissionable) ∧
      0 ≤ return_discount_amount l := by
    intro l hl
    simp only [c1w_return, List.mem_singleton] at hl
    subst hl
    refine ⟨?_, ?_, ?_⟩
    · norm_num [return_commission_amount, return_discount_quantity, c1w_rline,
        c1w_product]
    · intro h
      norm_num [return_commission_amount, return_discount_quantity, c1w_rline,
        c1w_product] at h
    · norm_num [return_discount_amount, return_discount_quantity, c1w_rline,
        c1w_product]
  exact ⟨h1, c1_booking_balanced_amended.1 c1w_order c1w_out h1 hl1,
    h2, c1_booking_balanced_amended.2 c1w_return c1w_rout h2 hl2⟩

/-- Payment status of a sales receipt. -/
inductive PayStatus where
  | pending
  | paid
deriving DecidableEq

/-- One `idil.sales.receipt` record (sales_receipt.py lines 5-44). -/
structure SalesReceipt where
  due_amount : Rat
  paid_amount : Rat
  remaining_amount : Rat
  payment_status : PayStatus
deriving DecidableEq

/-- Receipt bookkeeping invariant stated by the spec: the remaining amount is
the due amount minus the paid amount, and the paid amount never exceeds the
due amount. -/
def receipt_invariant (r : SalesReceipt) : Prop :=
  r.remaining_amount = r.due_amount - r.paid_amount ∧
    r.paid_amount ≤ r.due_amount

instance (r : SalesReceipt) : Decidable (receipt_invariant r) := by
  unfold receipt_invariant
  infer_instance

/-- Receipt mutation performed for one receipt inside
`action_confirm_payment` once a positive `to_pay` has been determined
(sales_receipt_bulk_payment.py lines 313-318). -/
def bulk_receipt_update (r : SalesReceipt) (to_pay : Rat) : SalesReceipt :=
  let paid := r.paid_amount + to_pay
  let rem := r.due_amount - paid
  ⟨r.due_amount, paid, rem, if rem ≤ 0 then .paid else .pending⟩

/-- The per-receipt step of the bulk confirmation loop as it affects the
receipt: pay `min(due - paid, remaining_payment)`, skipping the receipt when
that is not positive (sales_receipt_bulk_payment.py lines 187-189, 313-318). -/
def bulk_confirm_receipt_step (r : SalesReceipt) (remaining_payment : Rat) :
    SalesReceipt :=
  let to_pay := min (r.due_amount - r.paid_amount) remaining_payment
  if to_pay ≤ 0 then r else bulk_receipt_update r to_pay

/-- Receipt adjustment performed when a sale return is confirmed
(sale_return.py lines 367-380) and, with the delta amount, when a confirmed
return is edited (lines 438-443): reduce the due amount, clamp the paid
amount to it, recompute the remainder, and set the status from the sign of
the due amount. -/
def sales_return_receipt_adjust (r : SalesReceipt) (amount : Rat) :
    SalesReceipt :=
  let due := r.due_amount - amount
  let paid := min r.paid_amount due
  ⟨due, paid, due - paid, if due ≤ 0 then .paid else .pending⟩

/-- Receipt adjustment performed when a confirmed sale return is deleted
(sale_return.py lines 685-690): the return amount is added back to the due
amount, the paid amount is untouched, and the remainder and status are
recomputed. -/
def sales_return_unlink_receipt_adjust (r : SalesReceipt) (amount : Rat) :
    SalesReceipt :=
  let due := r.due_amount + amount
  ⟨due, r.paid_amount, due - r.paid_amount,
    if due ≤ 0 then .paid else .pending⟩

/-- Receipt adjustment performed at the end of `SaleOrder.write`
(sales.py lines 586-598): the due amount becomes the new order total and the
remainder is recomputed against the unchanged paid amount; the status is not
touched. -/
def sale_order_write_receipt_update (r : SalesReceipt) (new_due : Rat) :
    SalesReceipt :=
  ⟨new_due, r.paid_amount, new_due - r.paid_amount, r.payment_status⟩

/-- Receipt adjustment performed by `IdilSalesPayment.unlink`
(sales_receipt.py lines 162-166): the payment's paid amount is added back to
the remaining amount and removed from the paid amount; nothing else on the
receipt is written. -/
def sales_payment_unlink_receipt (r : SalesReceipt) (payment_paid : Rat) :
    SalesReceipt :=
  ⟨r.due_amount, r.paid_amount - payment_paid,
    r.remaining_amount + payment_paid, r.payment_status⟩

/-- C3.  Every receipt-touching operation re-establishes
`remaining = due - paid` and `paid ≤ due`: the bulk-payment confirmation step
(assuming the invariant held before, since a fully-paid receipt is skipped
unchanged), the sale-return confirmation/edit adjustment (unconditionally),
the confirmed-return deletion adjustment (assuming a nonnegative return
amount and that paid did not exceed due before), and the sale-order edit
update (whose guard forces the paid amount to be 0, assuming the new order
total is nonnegative). -/
theorem c3_receipt_invariant_preserved :
    (∀ (r : SalesReceipt) (rp : Rat), receipt_invariant r →
      receipt_invariant (bulk_confirm_receipt_step r rp)) ∧
    (∀ (r : SalesReceipt) (amount : Rat),
      receipt_invariant (sales_return_receipt_adjust r amount)) ∧
    (∀ (r : SalesReceipt) (amount : Rat), 0 ≤ amount →
      r.paid_amount ≤ r.due_amount →
      receipt_invariant (sales_return_unlink_receipt_adjust r amount)) ∧
    (∀ (r : SalesReceipt) (new_due : Rat), r.paid_amount = 0 → 0 ≤ new_due →
      receipt_invariant (sale_order_write_receipt_update r new_due)) := by
  refine ⟨?_, ?_, ?_, ?_⟩
  · intro r rp hr
    unfold bulk_confirm_receipt_step bulk_receipt_update
    dsimp only
    split
    · exact hr
    · rename_i hpos
      push_neg at hpos
      constructor
      · rfl
      · have := min_le_left (r.due_amount - r.paid_amount) rp
        dsimp only [SalesReceipt.paid_amount, SalesReceipt.due_amount]
        linarith
  · intro r amount
    unfold sales_return_receipt_adjust
    exact ⟨rfl, min_le_right _ _⟩
  · intro r amount hamt hpd
    unfold sales_return_unlink_receipt_adjust
    exact ⟨rfl, by dsimp only; linarith⟩
  · intro r new_due hpaid hnd
    unfold sale_order_write_receipt_update
    exact ⟨rfl, by dsimp only; linarith⟩

/-- Witness for C3: the four receipt updates applied to concrete receipts —
a bulk step of 50 against a receipt of 100 due / 30 paid, a return
adjustment of 40, a return deletion adding 40 back, and an order edit
setting the due amount to 80 on an unpaid receipt. -/
theorem c3_receipt_invariant_preserved_witness :
    receipt_invariant (⟨100, 30, 70, .pending⟩ : SalesReceipt) ∧
    receipt_invariant
      (bulk_confirm_receipt_step ⟨100, 30, 70, .pending⟩ 50) ∧
    receipt_invariant (sales_return_receipt_adjust ⟨100, 30, 70, .pending⟩ 40) ∧
    receipt_invariant
      (sales_return_unlink_receipt_adjust ⟨100, 30, 70, .pending⟩ 40) ∧
    receipt_invariant (sale_order_write_receipt_update ⟨80, 0, 80, .pending⟩ 60) :=
  ⟨by norm_num [receipt_invariant],
   c3_receipt_invariant_preserved.1 ⟨100, 30, 70, .pending⟩ 50
     (by norm_num [receipt_invariant]),
   c3_receipt_invariant_preserved.2.1 ⟨100, 30, 70, .pending⟩ 40,
   c3_receipt_invariant_preserved.2.2.1 ⟨100, 30, 70, .pending⟩ 40
     (by norm_num) (by norm_num),
   c3_receipt_invariant_preserved.2.2.2 ⟨80, 0, 80, .pending⟩ 60 rfl
     (by norm_num)⟩

/-- C10.  Deleting an `idil.sales.payment` record decreases the linked
receipt's paid amount by exactly the payment's paid amount, increases the
remaining amount by the same amount, leaves the due amount and the payment
status untouched, and therefore preserves `remaining = due - paid` whenever
it held before. -/
theorem c10_payment_unlink_receipt_effect :
    ∀ (r : SalesReceipt) (payment_paid : Rat),
      (sales_payment_unlink_receipt r payment_paid).paid_amount =
        r.paid_amount - payment_paid ∧
      (sales_payment_unlink_receipt r payment_paid).remaining_amount =
        r.remaining_amount + payment_paid ∧
      (sales_payment_unlink_receipt r payment_paid).due_amount =
        r.due_amount ∧
      (sales_payment_unlink_receipt r payment_paid).payment_status =
        r.payment_status ∧
      (r.remaining_amount = r.due_amount - r.paid_amount →
        (sales_payment_unlink_receipt r payment_paid).remaining_amount =
          (sales_payment_unlink_receipt r payment_paid).due_amount -
            (sales_payment_unlink_receipt r payment_paid).paid_amount) := by
  intro r p
  unfold sales_payment_unlink_receipt
  refine ⟨rfl, rfl, rfl, rfl, ?_⟩
  intro h
  dsimp only
  rw [h]
  ring

/-- Witness for C10: deleting a payment of 30 from a receipt with due 100 /
paid 30 restores paid 0 and remaining 100. -/
theorem c10_payment_unlink_receipt_effect_witness :
    (sales_payment_unlink_receipt ⟨100, 30, 70, .pending⟩ 30).paid_amount = 0 ∧
    (sales_payment_unlink_receipt ⟨100, 30, 70, .pending⟩ 30).remaining_amount =
      100 ∧
    (sales_payment_unlink_receipt ⟨100, 30, 70, .pending⟩ 30).remaining_amount =
      (sales_payment_unlink_receipt ⟨100, 30, 70, .pending⟩ 30).due_amount -
        (sales_payment_unlink_receipt ⟨100, 30, 70, .pending⟩ 30).paid_amount :=
  ⟨by norm_num [sales_payment_unlink_receipt],
   by norm_num [sales_payment_unlink_receipt],
   (c10_payment_unlink_receipt_effect ⟨100, 30, 70, .pending⟩ 30).2.2.2.2
     (by norm_num)⟩

/-- Error raised by stock validation. -/
inductive StockErr where
  | insufficient
deriving DecidableEq

/-- `SaleOrderLine.update_product_stock` (sales.py lines 917-928): subtract
the quantity difference from the product stock, raising a validation error
when the result would be negative. -/
def update_product_stock (stock quantity_diff : Rat) : Except StockErr Rat :=
  let new_stock_quantity := stock - quantity_diff
  if new_stock_quantity < 0 then .error .insufficient
  else .ok new_stock_quantity

/-- Stock observed after `update_product_stock`: unchanged when the update
was rejected. -/
def stock_after_update (stock quantity_diff : Rat) : Rat :=
  match update_product_stock stock quantity_diff with
  | .ok v => v
  | .error _ => stock

/-- Stock adjustment of `SaleOrder.write` for one line (sales.py lines
540-551): an increase checks availability and decrements, a decrease returns
the absolute difference to stock, no change leaves stock alone. -/
def sale_order_write_stock_adjust (stock qty_diff : Rat) :
    Except StockErr Rat :=
  if 0 < qty_diff then
    if stock < qty_diff then .error .insufficient
    else .ok (stock - qty_diff)
  else if qty_diff < 0 then .ok (stock + |qty_diff|)
  else .ok stock

/-- Stock observed after the `SaleOrder.write` adjustment: unchanged when the
update was rejected. -/
def stock_after_order_write (stock qty_diff : Rat) : Rat :=
  match sale_order_write_stock_adjust stock qty_diff with
  | .ok v => v
  | .error _ => stock

/-- Stock restitution of `SaleOrder.unlink` for one line (sales.py line
645). -/
def sale_order_unlink_stock (stock quantity : Rat) : Rat :=
  stock + quantity

/-- Stock restitution of `book_sales_return_entry` for one return line
(sale_return.py line 350). -/
def return_confirm_stock (stock returned_quantity : Rat) : Rat :=
  stock + returned_quantity

/-- Unchecked stock delta applied by `SaleReturn.write` on a confirmed
return (sale_return.py lines 398-403). -/
def return_write_stock (stock delta_qty : Rat) : Rat :=
  stock + delta_qty

/-- Unchecked stock reversal applied by `SaleReturn.unlink` on a confirmed
return (sale_return.py lines 654-658). -/
def return_unlink_stock (stock returned_quantity : Rat) : Rat :=
  stock - returned_quantity

/-- One stock-touching operation on a single product, as modelled from the
sale-order and return flows that validate stock. -/
inductive StockOp where
  | line_create (quantity : Rat)
  | line_write (quantity_diff : Rat)
  | order_write (qty_diff : Rat)
  | order_unlink (quantity : Rat)
  | return_confirm (returned_quantity : Rat)
deriving DecidableEq

/-- Observable stock after one operation: a rejected operation leaves the
stock unchanged. -/
def stock_op_apply (stock : Rat) : StockOp → Rat
  | .line_create q => stock_after_update stock q
  | .line_write d => stock_after_update stock d
  | .order_write d => stock_after_order_write stock d
  | .order_unlink q => sale_order_unlink_stock stock q
  | .return_confirm q => return_confirm_stock stock q

/-- Restocking operations carry the (per the spec, positive) document
quantity; decrementing operations need no side condition because they are
validated by the code. -/
def stock_op_wf : StockOp → Prop
  | .order_unlink q => 0 ≤ q
  | .return_confirm q => 0 ≤ q
  | _ => True

/-- C2 (amended).  Along every sequence of sale-order operations (line
create/write, order-level write, order unlink) and sale-return
confirmations with nonnegative document quantities, the product stock stays
nonnegative, and the two validated updates reject exactly the changes that
would drive it negative, leaving the stock unchanged.  The amendment drops
the write and unlink of a confirmed sale return from the claim: those adjust
stock with no check and can drive it negative without any error (see the
counterexample). -/
theorem c2_stock_nonnegative_amended :
    (∀ (ops : List StockOp) (s : Rat), (∀ op ∈ ops, stock_op_wf op) →
      0 ≤ s → 0 ≤ ops.foldl stock_op_apply s) ∧
    (∀ s d : Rat, update_product_stock s d = .error .insufficient ↔
      s - d < 0) ∧
    (∀ s d : Rat, s - d < 0 → stock_after_update s d = s) ∧
    (∀ s d : Rat, 0 < d → s < d →
      sale_order_write_stock_adjust s d = .error .insufficient ∧
        stock_after_order_write s d = s) := by
  refine ⟨?_, ?_, ?_, ?_⟩
  · intro ops
    induction ops with
    | nil => intro s _ hs; simpa using hs
    | cons op rest ih =>
        intro s hwf hs
        simp only [List.foldl_cons]
        refine ih (stock_op_apply s op) (fun o ho => hwf o (List.mem_cons_of_mem op ho)) ?_
        have hop := hwf op (List.mem_cons_self op rest)
        cases op with
        | line_create q =>
            unfold stock_op_apply stock_after_update update_product_stock
            dsimp only
            split
            · rename_i heq
              split at heq
              · cases heq
              · rename_i hge
                cases heq
                linarith [not_lt.mp hge]
            · exact hs
        | line_write d =>
            unfold stock_op_apply stock_after_update update_product_stock
            dsimp only
            split
            · rename_i heq
              split at heq
              · cases heq
              · rename_i hge
                cases heq
                linarith [not_lt.mp hge]
            · exact hs
        | order_write d =>
            unfold stock_op_apply stock_after_order_write
              sale_order_write_stock_adjust
            dsimp only
            split
            · rename_i heq
              split at heq
              · split at heq
                · cases heq
                · rename_i hpos hge
                  cases heq
                  linarith [not_lt.mp hge]
              · split at heq
                · rename_i hpos hneg
                  cases heq
                  have : 0 ≤ |d| := abs_nonneg d
                  linarith
                · cases heq
                  exact hs
            · exact hs
        | order_unlink q =>
            simp only [stock_op_apply, sale_order_unlink_stock]
            simp only [stock_op_wf] at hop
            linarith
        | return_confirm q =>
            simp only [stock_op_apply, return_confirm_stock]
            simp only [stock_op_wf] at hop
            linarith
  · intro s d
    unfold update_product_stock
    constructor
    · intro h
      by_contra hge
      rw [if_neg hge] at h
      cases h
    · intro h
      rw [if_pos h]
  · intro s d h
    unfold stock_after_update update_product_stock
    rw [if_pos h]
  · intro s d hd hs
    unfold sale_order_write_stock_adjust stock_after_order_write
      sale_order_write_stock_adjust
    rw [if_pos hd, if_pos hs]
    exact ⟨rfl, rfl⟩

/-- Witness for C2 (amended): a concrete four-operation sequence starting
from stock 10 stays nonnegative, and a concrete over-draw of 7 against stock
5 is rejected unchanged. -/
theorem c2_stock_nonnegative_amended_witness :
    0 ≤ ([StockOp.line_create 4, StockOp.order_write 2,
          StockOp.return_confirm 3, StockOp.order_unlink 1].foldl
            stock_op_apply 10) ∧
    update_product_stock 5 7 = .error .insufficient ∧
    stock_after_update 5 7 = 5 :=
  ⟨c2_stock_nonnegative_amended.1
      [StockOp.line_create 4, StockOp.order_write 2,
       StockOp.return_confirm 3, StockOp.order_unlink 1] 10
      (by intro op hop; fin_cases hop <;> norm_num [stock_op_wf])
      (by norm_num),
   (c2_stock_nonnegative_amended.2.1 5 7).mpr (by norm_num),
   c2_stock_nonnegative_amended.2.2.1 5 7 (by norm_num)⟩

/-- Stock level of one product in the per-product stock table. -/
def get_stock (stocks : List (Nat × Rat)) (pid : Nat) : Rat :=
  (stocks.lookup pid).getD 0

/-- Write one product's stock level in the per-product stock table. -/
def set_stock : List (Nat × Rat) → Nat → Rat → List (Nat × Rat)
  | [], pid, v => [(pid, v)]
  | (p, q) :: rest, pid, v =>
      if p = pid then (pid, v) :: rest else (p, q) :: set_stock rest pid v

/-- Paid amount of the (at most one) receipt linked to an order. -/
def paid_of (r : Option SalesReceipt) : Rat :=
  (r.map SalesReceipt.paid_amount).getD 0

/-- Modelled from the spec: the `amount_paid` field read by the deletion
guard of `SaleReturn.unlink` (sale_return.py lines 640-652) is not declared
on `idil.sales.receipt` in the files under src/ — the receipt model is
extended elsewhere in the repository.  The spec describes this guard as
blocking when the linked receipt shows nonzero paid amount, so the field is
modelled as the receipt's paid amount. -/
def amount_paid_of (r : Option SalesReceipt) : Rat :=
  paid_of r

/-- Error raised by the deletion guard of a confirmed sale return. -/
inductive UnlinkErr where
  | payment_received
deriving DecidableEq

/-- Outcome of `SaleReturn.unlink`: the stock table, the linked receipt, a
flag recording whether the return was actually deleted, and the error, if
any. -/
structure SaleReturnUnlinkResult where
  stocks : List (Nat × Rat)
  receipt : Option SalesReceipt
  deleted : Bool
  err : Option UnlinkErr
deriving DecidableEq

/-- `SaleReturn.unlink` (sale_return.py lines 635-709).  A non-confirmed
return is deleted with no side effect modelled here.  For a confirmed
return: block when the linked receipt has a positive paid amount; otherwise
subtract each line's returned quantity from the product stock — with no
non-negativity check — and add the return amount (total of stored line
subtotals minus recomputed discount and commission totals) back onto the
receipt. -/
def sale_return_unlink (r : SaleReturn) (receipt : Option SalesReceipt)
    (stocks : List (Nat × Rat)) : SaleReturnUnlinkResult :=
  if r.state ≠ .confirmed then ⟨stocks, receipt, true, none⟩
  else if 0 < amount_paid_of receipt then
    ⟨stocks, receipt, false, some .payment_received⟩
  else
    let stocks1 := r.return_lines.foldl
      (fun st l =>
        if l.returned_quantity ≠ 0 then
          set_stock st l.product.id
            (get_stock st l.product.id - l.returned_quantity)
        else st) stocks
    let receipt1 :=
      match receipt with
      | none => none
      | some rc =>
          let total_subtotal := (r.return_lines.map SaleReturnLine.subtotal).sum
          let total_discount := (r.return_lines.map return_discount_amount).sum
          let total_commission :=
            (r.return_lines.map return_commission_amount).sum
          some (sales_return_unlink_receipt_adjust rc
            (total_subtotal - total_discount - total_commission))
    ⟨stocks1, receipt1, true, none⟩

/-- Product for the C2 counterexample (only its id matters to the stock
table). -/
def c2x_product : Product where
  id := 1
  cost := 0
  commission := 0
  discount := 0
  is_sales_commissionable := false
  is_quantity_discount := false
  bom_currency_usd := false
  account_cogs_id := none
  asset_account_id := none
  income_account_id := none
  sales_account_id := none
  sales_discount_id := none

/-- Confirmed return line of 4 units for the C2 counterexample. -/
def c2x_rline : SaleReturnLine where
  id := 1
  product := c2x_product
  quantity := 10
  returned_quantity := 4
  price_unit := 5
  subtotal := 20

/-- Confirmed sale return for the C2 counterexample. -/
def c2x_return : SaleReturn where
  id := 3
  sale_order_id := 1
  state := .confirmed
  account_receivable := some ⟨9, 5⟩
  rate := 1
  trx_source_exists := true
  return_lines := [c2x_rline]

/-- Receipt with no payment for the C2 counterexample, so the deletion guard
does not fire. -/
def c2x_receipt : SalesReceipt := ⟨100, 0, 100, .pending⟩

/-- C2 counterexample: deleting a confirmed return of 4 units while the
product stock is 0 raises no error, deletes the return, and leaves the stock
at -4 — the operation is neither rejected nor does it keep the stock
nonnegative, refuting the claimed invariant for return deletion. -/
theorem c2_counterexample :
    (sale_return_unlink c2x_return (some c2x_receipt) [(1, 0)]).err = none ∧
    (sale_return_unlink c2x_return (some c2x_receipt) [(1, 0)]).deleted = true ∧
    get_stock (sale_return_unlink c2x_return (some c2x_receipt)
      [(1, 0)]).stocks 1 = -4 ∧
    ¬ (0 ≤ get_stock (sale_return_unlink c2x_return (some c2x_receipt)
      [(1, 0)]).stocks 1) := by
  refine ⟨?_, ?_, ?_, ?_⟩ <;>
    norm_num [sale_return_unlink, c2x_return, c2x_rline, c2x_product,
      c2x_receipt, amount_paid_of, paid_of, get_stock, set_stock,
      sales_return_unlink_receipt_adjust, return_discount_amount,
      return_commission_amount, return_discount_quantity, List.lookup]

/-- Errors raised by the edit/delete guards and bodies of `SaleOrder`. -/
inductive OrderEditErr where
  | linked_receipts
  | linked_returns
  | insufficient_stock
  | posting_failed (e : PostErr)
deriving DecidableEq

/-- State surrounding one sale order, as read and written by
`SaleOrder.write` and `SaleOrder.unlink`: the order itself, its (at most
one) receipt, whether any sale return references it, its posted booking
lines, and the product stock table. -/
structure SaleOrderEnvState where
  order : SaleOrder
  receipt : Option SalesReceipt
  has_returns : Bool
  bookings : List BookingLine
  stocks : List (Nat × Rat)
deriving DecidableEq

/-- Stock-adjustment loop of `SaleOrder.write` (sales.py lines 531-551)
over the(old line, new line) pairs, applying the per-line adjustment and
failing on insufficient stock. -/
def write_stock_loop :
    List (SaleOrderLine × SaleOrderLine) → List (Nat × Rat) →
      Except OrderEditErr (List (Nat × Rat))
  | [], st => .ok st
  | (old, nl) :: rest, st =>
      let d := nl.quantity - old.quantity
      match sale_order_write_stock_adjust (get_stock st old.product.id) d with
      | .error _ => .error .insufficient_stock
      | .ok v => write_stock_loop rest (set_stock st old.product.id v)

/-- `SaleOrder.write` (sales.py lines 493-600): block when the linked
receipt has a positive paid amount or when any sale return exists; otherwise
adjust stock per line, retract and re-post the booking, and update the
receipt's due/remaining amounts from the new order total.  A failure inside
the body is surfaced with the pre-state, matching the enclosing
transaction's rollback described by the spec. -/
def sale_order_write (env : SaleOrderEnvState)
    (new_lines : List SaleOrderLine) :
    SaleOrderEnvState × Option OrderEditErr :=
  if 0 < paid_of env.receipt then (env, some .linked_receipts)
  else if env.has_returns then (env, some .linked_returns)
  else
    match write_stock_loop (env.order.order_lines.zip new_lines) env.stocks with
    | .error e => (env, some e)
    | .ok stocks1 =>
        let new_order : SaleOrder := { env.order with order_lines := new_lines }
        match book_accounting_entry new_order with
        | .error e => (env, some (.posting_failed e))
        | .ok bl =>
            let order_total := (new_lines.map SaleOrderLine.subtotal).sum
            let receipt1 := env.receipt.map
              (fun rc => sale_order_write_receipt_update rc order_total)
            (⟨new_order, receipt1, env.has_returns, bl, stocks1⟩, none)

/-- `SaleOrder.unlink` (sales.py lines 602-674): block when the linked
receipt has a positive paid amount or when any sale return exists; otherwise
return each line's quantity to stock, delete the bookings, the order, and
finally the receipt. -/
def sale_order_unlink (env : SaleOrderEnvState) :
    SaleOrderEnvState × Option OrderEditErr × Bool :=
  if 0 < paid_of env.receipt then (env, some .linked_receipts, false)
  else if env.has_returns then (env, some .linked_returns, false)
  else
    let stocks1 := env.order.order_lines.foldl
      (fun st l =>
        set_stock st l.product.id (get_stock st l.product.id + l.quantity))
      env.stocks
    (⟨env.order, none, env.has_returns, [], stocks1⟩, none, true)

/-- C8.  Editing or deleting a sale order, and deleting a confirmed sale
return, fail with a domain error whenever the linked sales receipt has a
nonzero (hence positive, amounts being nonnegative) paid amount, and the
whole modelled state — document, ledger entries, receipt, stock — is
returned unchanged. -/
theorem c8_blocked_when_receipt_paid :
    (∀ (env : SaleOrderEnvState) (new_lines : List SaleOrderLine),
      paid_of env.receipt ≠ 0 → 0 ≤ paid_of env.receipt →
      sale_order_write env new_lines = (env, some .linked_receipts)) ∧
    (∀ env : SaleOrderEnvState,
      paid_of env.receipt ≠ 0 → 0 ≤ paid_of env.receipt →
      sale_order_unlink env = (env, some .linked_receipts, false)) ∧
    (∀ (r : SaleReturn) (receipt : Option SalesReceipt)
        (stocks : List (Nat × Rat)),
      r.state = .confirmed → amount_paid_of receipt ≠ 0 →
      0 ≤ amount_paid_of receipt →
      sale_return_unlink r receipt stocks =
        ⟨stocks, receipt, false, some .payment_received⟩) := by
  refine ⟨?_, ?_, ?_⟩
  · intro env new_lines hne hge
    have hpos : 0 < paid_of env.receipt := lt_of_le_of_ne hge (Ne.symm hne)
    unfold sale_order_write
    rw [if_pos hpos]
  · intro env hne hge
    have hpos : 0 < paid_of env.receipt := lt_of_le_of_ne hge (Ne.symm hne)
    unfold sale_order_unlink
    rw [if_pos hpos]
  · intro r receipt stocks hstate hne hge
    have hpos : 0 < amount_paid_of receipt := lt_of_le_of_ne hge (Ne.symm hne)
    unfold sale_return_unlink
    rw [if_neg (by simp [hstate]), if_pos hpos]

/-- Order used by the C8 witness. -/
def c8w_order : SaleOrder := ⟨some ⟨9, 5⟩, 1, true, []⟩

/-- Environment used by the C8 witness: the linked receipt shows 30 paid. -/
def c8w_env : SaleOrderEnvState :=
  ⟨c8w_order, some ⟨100, 30, 70, .pending⟩, false, [], []⟩

/-- Confirmed sale return used by the C8 witness. -/
def c8w_return : SaleReturn := ⟨4, 1, .confirmed, some ⟨9, 5⟩, 1, true, []⟩

/-- Witness for C8: with 30 already paid on the receipt, editing the order,
deleting the order, and deleting the confirmed return are all rejected and
leave the state unchanged. -/
theorem c8_blocked_when_receipt_paid_witness :
    paid_of c8w_env.receipt = 30 ∧
    sale_order_write c8w_env [] = (c8w_env, some .linked_receipts) ∧
    sale_order_unlink c8w_env = (c8w_env, some .linked_receipts, false) ∧
    sale_return_unlink c8w_return (some ⟨100, 30, 70, .pending⟩) [] =
      ⟨[], some ⟨100, 30, 70, .pending⟩, false, some .payment_received⟩ :=
  ⟨by norm_num [c8w_env, paid_of],
   c8_blocked_when_receipt_paid.1 c8w_env []
     (by norm_num [c8w_env, paid_of]) (by norm_num [c8w_env, paid_of]),
   c8_blocked_when_receipt_paid.2.1 c8w_env
     (by norm_num [c8w_env, paid_of]) (by norm_num [c8w_env, paid_of]),
   c8_blocked_when_receipt_paid.2.2 c8w_return (some ⟨100, 30, 70, .pending⟩)
     [] rfl (by norm_num [amount_paid_of, paid_of])
     (by norm_num [amount_paid_of, paid_of])⟩

/-- One `idil.sale.order.line` record as seen by the return flows: its
order, its product, and the sold quantity. -/
structure SaleOrderLineRec where
  order_id : Nat
  product_id : Nat
  quantity : Rat
deriving DecidableEq

/-- Database slice used by the sale-return resolvers: the sale order lines
and the sale returns (each carrying its lines). -/
structure ReturnsDb where
  sale_lines : List SaleOrderLineRec
  returns : List SaleReturn
deriving DecidableEq

/-- Flat list of all `idil.sale.return.line` records, each paired with its
parent return — the shape the ORM searches over. -/
def return_line_records (db : List SaleReturn) :
    List (SaleReturn × SaleReturnLine) :=
  db.flatMap (fun r => r.return_lines.map (fun l => (r, l)))

/-- `SaleReturnLine._compute_previously_returned_qty` (sale_return.py lines
745-769): sum of `returned_quantity` over all return lines with the same
product and originating sale order whose parent return is confirmed,
excluding the line itself (all lines are modelled as saved, i.e. with a
numeric id). -/
def previously_returned_qty (db : List SaleReturn)
    (sale_order_id product_id self_id : Nat) : Rat :=
  (((return_line_records db).filter (fun rl =>
      decide (rl.2.product.id = product_id ∧
        rl.1.sale_order_id = sale_order_id ∧
        rl.1.state = DocState.confirmed ∧ rl.2.id ≠ self_id))).map
    (fun rl => rl.2.returned_quantity)).sum

/-- The claim's reading of the same aggregate: per confirmed return of the
order, sum the matching lines, then total over the returns. -/
def spec_previously_returned (db : List SaleReturn)
    (sale_order_id product_id self_id : Nat) : Rat :=
  ((db.filter (fun r =>
      decide (r.state = DocState.confirmed ∧
        r.sale_order_id = sale_order_id))).map
    (fun r => ((r.return_lines.filter (fun l =>
        decide (l.product.id = product_id ∧ l.id ≠ self_id))).map
      SaleReturnLine.returned_quantity).sum)).sum

/-- `SaleReturnLine._compute_available_return_qty` (sale_return.py lines
776-810): find the first sale line of the order with the same product; if
none, 0; otherwise the sold quantity minus the previously returned quantity
(same aggregate as above), floored at 0. -/
def available_return_qty (db : ReturnsDb)
    (sale_order_id product_id self_id : Nat) : Rat :=
  match db.sale_lines.find? (fun sl =>
      decide (sl.order_id = sale_order_id ∧ sl.product_id = product_id)) with
  | none => 0
  | some sl =>
      max (sl.quantity -
        previously_returned_qty db.returns sale_order_id product_id self_id) 0

/-- Aggregate used by `SaleReturn.action_confirm` (sale_return.py lines
109-119): previously returned quantity for the product and order over
confirmed returns, excluding the whole return being confirmed (by return id,
not by line id). -/
def prev_returned_excluding_return (db : List SaleReturn)
    (sale_order_id product_id return_id : Nat) : Rat :=
  (((return_line_records db).filter (fun rl =>
      decide (rl.1.sale_order_id = sale_order_id ∧
        rl.2.product.id = product_id ∧
        rl.1.id ≠ return_id ∧
        rl.1.state = DocState.confirmed))).map
    (fun rl => rl.2.returned_quantity)).sum

/-- Quantities cited by the over-return validation message: already
returned, available for return, and original sold quantity. -/
structure OverReturnInfo where
  already_returned : Rat
  available : Rat
  original : Rat
deriving DecidableEq

/-- Errors raised by `SaleReturn.action_confirm`. -/
inductive ConfirmErr where
  | not_draft
  | sale_line_not_found (product_id : Nat)
  | over_return (info : OverReturnInfo)
  | booking_failed (e : RetPostErr)
deriving DecidableEq

/-- Validation loop of `action_confirm` (sale_return.py lines 95-131): for
each return line, find the corresponding sale line (first match on order and
product), compute the previously returned total excluding the current
return, and fail when the new total would exceed the sold quantity, citing
the three quantities of the message. -/
def confirm_validate (db : ReturnsDb) (ret : SaleReturn) :
    List SaleReturnLine → Option ConfirmErr
  | [] => none
  | l :: rest =>
      match db.sale_lines.find? (fun sl =>
          decide (sl.order_id = ret.sale_order_id ∧
            sl.product_id = l.product.id)) with
      | none => some (.sale_line_not_found l.product.id)
      | some sl =>
          let total_prev := prev_returned_excluding_return db.returns
            ret.sale_order_id l.product.id ret.id
          if sl.quantity < total_prev + l.returned_quantity then
            some (.over_return
              ⟨total_prev, sl.quantity - total_prev, sl.quantity⟩)
          else confirm_validate db ret rest

/-- `SaleReturn.action_confirm` (sale_return.py lines 90-135) as it affects
the return document: only draft returns may be confirmed; the validation
loop runs first, then the booking is posted and the state becomes
confirmed.  On any error the return is left as it was (the stock and receipt
effects of a successful booking are modelled by the booking and receipt
functions above). -/
def action_confirm (db : ReturnsDb) (ret : SaleReturn) :
    SaleReturn × Option ConfirmErr :=
  if ret.state ≠ .draft then (ret, some .not_draft)
  else
    match confirm_validate db ret ret.return_lines with
    | some e => (ret, some e)
    | none =>
        match book_sales_return_entry ret with
        | .error e => (ret, some (.booking_failed e))
        | .ok _ => ({ ret with state := .confirmed }, none)

/-- Contribution of one return's lines to the previously-returned aggregate:
its matching lines count exactly when the return is confirmed and belongs to
the order. -/
theorem prev_head_sum (r : SaleReturn) (ls : List SaleReturnLine)
    (oid pid sid : Nat) :
    (((ls.map (fun l => (r, l))).filter (fun rl =>
        decide (rl.2.product.id = pid ∧ rl.1.sale_order_id = oid ∧
          rl.1.state = DocState.confirmed ∧ rl.2.id ≠ sid))).map
      (fun rl => rl.2.returned_quantity)).sum =
    if r.state = DocState.confirmed ∧ r.sale_order_id = oid then
      ((ls.filter (fun l => decide (l.product.id = pid ∧ l.id ≠ sid))).map
        SaleReturnLine.returned_quantity).sum
    else 0 := by
  by_cases hr : r.state = DocState.confirmed ∧ r.sale_order_id = oid
  · rw [if_pos hr]
    induction ls with
    | nil => simp
    | cons l ls ih =>
        simp only [List.map_cons, List.filter_cons, decide_eq_true_eq]
        by_cases hl : l.product.id = pid ∧ l.id ≠ sid
        · rw [if_pos (show l.product.id = pid ∧ r.sale_order_id = oid ∧
              r.state = DocState.confirmed ∧ l.id ≠ sid from
              ⟨hl.1, hr.2, hr.1, hl.2⟩), if_pos hl]
          simp only [List.map_cons, List.sum_cons]
          rw [ih]
        · rw [if_neg (by tauto), if_neg hl]
          exact ih
  · rw [if_neg hr]
    induction ls with
    | nil => simp
    | cons l ls ih =>
        simp only [List.map_cons, List.filter_cons, decide_eq_true_eq]
        rw [if_neg (by tauto)]
        exact ih

/-- C6.  The stored previously-returned aggregate equals the claim's
nested-sum reading (per confirmed return of the same order, the matching
lines excluding the line itself), and the available-to-return quantity is
the sold quantity of the first matching sale line minus that aggregate,
floored at 0.  Both computations are pure functions of the database slice:
they only read. -/
theorem c6_returnable_resolver_correct :
    (∀ (db : List SaleReturn) (oid pid sid : Nat),
      previously_returned_qty db oid pid sid =
        spec_previously_returned db oid pid sid) ∧
    (∀ (db : ReturnsDb) (oid pid sid : Nat) (sl : SaleOrderLineRec),
      db.sale_lines.find? (fun s =>
        decide (s.order_id = oid ∧ s.product_id = pid)) = some sl →
      available_return_qty db oid pid sid =
        max (sl.quantity - previously_returned_qty db.returns oid pid sid)
          0) := by
  constructor
  · intro db oid pid sid
    induction db with
    | nil => rfl
    | cons r rest ih =>
        unfold previously_returned_qty spec_previously_returned
          return_line_records at ih ⊢
        simp only [List.flatMap_cons, List.filter_append, List.map_append,
          List.sum_append, List.filter_cons, decide_eq_true_eq]
        rw [prev_head_sum]
        by_cases hr : r.state = DocState.confirmed ∧ r.sale_order_id = oid
        · rw [if_pos hr, if_pos hr]
          simp only [List.map_cons, List.sum_cons]
          rw [ih]
        · rw [if_neg hr, if_neg hr, zero_add]
          exact ih
  · intro db oid pid sid sl h
    unfold available_return_qty
    rw [h]

/-- Product referenced by the C6 witness records. -/
def c6w_product : Product where
  id := 1
  cost := 0
  commission := 0
  discount := 0
  is_sales_commissionable := false
  is_quantity_discount := false
  bom_currency_usd := false
  account_cogs_id := none
  asset_account_id := none
  income_account_id := none
  sales_account_id := none
  sales_discount_id := none

/-- Sale line of 10 units for the C6 witness. -/
def c6w_sale_line : SaleOrderLineRec := ⟨1, 1, 10⟩

/-- Confirmed sibling return of 4 units for the C6 witness. -/
def c6w_prior_return : SaleReturn where
  id := 2
  sale_order_id := 1
  state := .confirmed
  account_receivable := some ⟨9, 5⟩
  rate := 1
  trx_source_exists := true
  return_lines := [⟨10, c6w_product, 10, 4, 5, 20⟩]

/-- Database slice for the C6 witness. -/
def c6w_db : ReturnsDb := ⟨[c6w_sale_line], [c6w_prior_return]⟩

/-- Witness for C6: with a confirmed sibling return of 4 against a sale line
of 10, the previously-returned aggregate agrees with the nested-sum reading
and the available quantity is max(10 - 4, 0) = 6. -/
theorem c6_returnable_resolver_correct_witness :
    (previously_returned_qty c6w_db.returns 1 1 11 =
      spec_previously_returned c6w_db.returns 1 1 11) ∧
    available_return_qty c6w_db 1 1 11 =
      max (c6w_sale_line.quantity -
        previously_returned_qty c6w_db.returns 1 1 11) 0 ∧
    previously_returned_qty c6w_db.returns 1 1 11 = 4 ∧
    available_return_qty c6w_db 1 1 11 = 6 :=
  ⟨c6_returnable_resolver_correct.1 c6w_db.returns 1 1 11,
   c6_returnable_resolver_correct.2 c6w_db 1 1 11 c6w_sale_line rfl,
   by norm_num [previously_returned_qty, return_line_records, c6w_db,
     c6w_prior_return, c6w_product, List.flatMap],
   by norm_num [available_return_qty, previously_returned_qty,
     return_line_records, c6w_db, c6w_sale_line, c6w_prior_return,
     c6w_product, List.flatMap, List.find?]⟩

/-- Any over-return error produced by the validation loop cites quantities
satisfying available = original - already returned, as the message computes
them. -/
theorem confirm_validate_info (db : ReturnsDb) (ret : SaleReturn) :
    ∀ (ls : List SaleReturnLine) (info : OverReturnInfo),
      confirm_validate db ret ls = some (.over_return info) →
      info.available = info.original - info.already_returned := by
  intro ls
  induction ls with
  | nil => intro info h; cases h
  | cons l rest ih =>
      intro info h
      unfold confirm_validate at h
      cases hf : db.sale_lines.find? (fun sl =>
          decide (sl.order_id = ret.sale_order_id ∧
            sl.product_id = l.product.id)) with
      | none => rw [hf] at h; cases h
      | some sl =>
          rw [hf] at h
          dsimp only at h
          split at h
          · simp only [Option.some.injEq, ConfirmErr.over_return.injEq] at h
            subst h
            rfl
          · exact ih info h

/-- C5.  Confirming a draft sale return whose validation loop detects an
over-return fails with exactly that error — carrying the already-returned,
available (= original - already returned), and original sold quantities —
and leaves the return in draft; and whenever some line's returned quantity
exceeds the returnable quantity (sold minus previously returned on other
confirmed returns of the same order and product) while every line has a
matching sale line, the validation loop does detect an over-return. -/
theorem c5_over_return_rejected :
    (∀ (db : ReturnsDb) (ret : SaleReturn) (info : OverReturnInfo),
      ret.state = .draft →
      confirm_validate db ret ret.return_lines =
        some (.over_return info) →
      action_confirm db ret = (ret, some (.over_return info)) ∧
      (action_confirm db ret).1.state = DocState.draft ∧
      info.available = info.original - info.already_returned) ∧
    (∀ (db : ReturnsDb) (ret : SaleReturn),
      (∀ l ∈ ret.return_lines, (db.sale_lines.find? (fun sl =>
        decide (sl.order_id = ret.sale_order_id ∧
          sl.product_id = l.product.id))).isSome) →
      (∃ l ∈ ret.return_lines, ∃ sl,
        db.sale_lines.find? (fun s =>
          decide (s.order_id = ret.sale_order_id ∧
            s.product_id = l.product.id)) = some sl ∧
        sl.quantity < prev_returned_excluding_return db.returns
          ret.sale_order_id l.product.id ret.id + l.returned_quantity) →
      ∃ info, confirm_validate db ret ret.return_lines =
        some (.over_return info)) := by
  constructor
  · intro db ret info hstate hscan
    have hact : action_confirm db ret = (ret, some (.over_return info)) := by
      unfold action_confirm
      rw [if_neg (by simp [hstate]), hscan]
    refine ⟨hact, ?_, confirm_validate_info db ret ret.return_lines info hscan⟩
    rw [hact]
    exact hstate
  · intro db ret hfound hex
    have main : ∀ ls : List SaleReturnLine,
        (∀ l ∈ ls, (db.sale_lines.find? (fun sl =>
          decide (sl.order_id = ret.sale_order_id ∧
            sl.product_id = l.product.id))).isSome) →
        (∃ l ∈ ls, ∃ sl,
          db.sale_lines.find? (fun s =>
            decide (s.order_id = ret.sale_order_id ∧
              s.product_id = l.product.id)) = some sl ∧
          sl.quantity < prev_returned_excluding_return db.returns
            ret.sale_order_id l.product.id ret.id + l.returned_quantity) →
        ∃ info, confirm_validate db ret ls = some (.over_return info) := by
      intro ls
      induction ls with
      | nil =>
          intro _ hex0
          rcases hex0 with ⟨l, hl, _⟩
          cases hl
      | cons l rest ih =>
          intro hfnd hex0
          rcases Option.isSome_iff_exists.mp
            (hfnd l (List.mem_cons_self l rest)) with ⟨sl, hf⟩
          unfold confirm_validate
          rw [hf]
          dsimp only
          by_cases hover : sl.quantity <
              prev_returned_excluding_return db.returns ret.sale_order_id
                l.product.id ret.id + l.returned_quantity
          · rw [if_pos hover]
            exact ⟨_, rfl⟩
          · rw [if_neg hover]
            refine ih (fun x hx => hfnd x (List.mem_cons_of_mem l hx)) ?_
            rcases hex0 with ⟨l0, hl0, sl0, hf0, hlt0⟩
            rcases List.mem_cons.mp hl0 with rfl | hl0rest
            · rw [hf0] at hf
              cases hf
              exact absurd hlt0 hover
            · exact ⟨l0, hl0rest, sl0, hf0, hlt0⟩
    exact main ret.return_lines hfound hex

/-- Product referenced by the C5 witness records. -/
def c5w_product : Product where
  id := 1
  cost := 0
  commission := 0
  discount := 0
  is_sales_commissionable := false
  is_quantity_discount := false
  bom_currency_usd := false
  account_cogs_id := none
  asset_account_id := none
  income_account_id := none
  sales_account_id := none
  sales_discount_id := none

/-- Confirmed sibling return of 4 units for the C5 witness. -/
def c5w_prior_return : SaleReturn where
  id := 2
  sale_order_id := 1
  state := .confirmed
  account_receivable := some ⟨9, 5⟩
  rate := 1
  trx_source_exists := true
  return_lines := [⟨10, c5w_product, 10, 4, 5, 20⟩]

/-- Draft return attempting to bring back 7 units for the C5 witness. -/
def c5w_return : SaleReturn where
  id := 3
  sale_order_id := 1
  state := .draft
  account_receivable := some ⟨9, 5⟩
  rate := 1
  trx_source_exists := true
  return_lines := [⟨11, c5w_product, 10, 7, 5, 35⟩]

/-- Database slice for the C5 witness: a sale line of 10 units and the
confirmed sibling return. -/
def c5w_db : ReturnsDb := ⟨[⟨1, 1, 10⟩], [c5w_prior_return]⟩

/-- Witness for C5 (the spec's Scenario C): returning 7 when 4 of 10 are
already returned is rejected citing already 4, available 6, original 10, and
the return stays draft. -/
theorem c5_over_return_rejected_witness :
    confirm_validate c5w_db c5w_return c5w_return.return_lines =
      some (.over_return ⟨4, 6, 10⟩) ∧
    action_confirm c5w_db c5w_return =
      (c5w_return, some (.over_return ⟨4, 6, 10⟩)) ∧
    (action_confirm c5w_db c5w_return).1.state = DocState.draft := by
  have hscan : confirm_validate c5w_db c5w_return c5w_return.return_lines =
      some (.over_return ⟨4, 6, 10⟩) := by
    norm_num [confirm_validate, c5w_db, c5w_return, c5w_prior_return,
      c5w_product, prev_returned_excluding_return, return_line_records,
      List.flatMap, List.find?]
  have h := c5_over_return_rejected.1 c5w_db c5w_return ⟨4, 6, 10⟩ rfl hscan
  exact ⟨hscan, h.1, h.2.1⟩

/-- Receipt as seen by the bulk-payment flow
(`idil.receipt.bulk.payment`): identity, receipt date (ordering key), the
three amounts, the status, and the partner's receivable account (id and
currency). -/
structure BulkReceipt where
  id : Nat
  receipt_date : Nat
  due_amount : Rat
  paid_amount : Rat
  remaining_amount : Rat
  payment_status : PayStatus
  recv_account_id : Nat
  recv_currency : Nat
deriving DecidableEq

/-- One `idil.receipt.bulk.payment.method` line: payment account id, its
currency, and the amount available on that method. -/
structure PaymentMethod where
  account_id : Nat
  currency : Nat
  payment_amount : Rat
deriving DecidableEq

/-- Errors raised by `action_confirm_payment`. -/
inductive BulkErr where
  | no_payment_method
  | no_trx_source
  | currency_mismatch
  | insufficient_method_amounts
  | partial_payment (unused : Rat)
deriving DecidableEq

/-- Receipt mutation of the confirmation loop for a positive `to_pay`
(sales_receipt_bulk_payment.py lines 313-318), on the bulk view of the
receipt. -/
def bulk_line_receipt_update (r : BulkReceipt) (to_pay : Rat) : BulkReceipt :=
  let paid := r.paid_amount + to_pay
  let rem := r.due_amount - paid
  { r with
    paid_amount := paid
    remaining_amount := rem
    payment_status := if rem ≤ 0 then .paid else .pending }

/-- Debit-allocation loop across payment methods for one receipt
(sales_receipt_bulk_payment.py lines 245-286): consume each method's
remaining per-account capacity in listed order, checking its currency, until
the receipt's `to_pay` is covered; any uncovered remainder raises. -/
def alloc_dr (ar_currency : Nat) :
    List PaymentMethod → List (Nat × Rat) → Rat →
      Except BulkErr (List BookingLine × List (Nat × Rat))
  | [], by_account, remaining =>
      if 0 < remaining then .error .insufficient_method_amounts
      else .ok ([], by_account)
  | m :: ms, by_account, remaining =>
      let avail := get_stock by_account m.account_id
      let allocatable := min remaining avail
      if allocatable ≤ 0 then alloc_dr ar_currency ms by_account remaining
      else if m.currency ≠ ar_currency then .error .currency_mismatch
      else
        let by1 := set_stock by_account m.account_id (avail - allocatable)
        let dr_line : BookingLine := ⟨m.account_id, .dr, allocatable, 0⟩
        let rest := remaining - allocatable
        if rest ≤ 0 then .ok ([dr_line], by1)
        else
          match alloc_dr ar_currency ms by1 rest with
          | .error e => .error e
          | .ok (ls, by2) => .ok (dr_line :: ls, by2)

/-- Everything the confirmation loop produces: the receipts (mutated where
allocations were applied), the payment records (receipt id, amount), the
booking lines written, the unconsumed payment amount, and the error, if
any.  On a mid-loop error the already-processed prefix keeps its mutations —
the source has no compensation code. -/
structure ConfirmOutcome where
  receipts : List BulkReceipt
  payments : List (Nat × Rat)
  blines : List BookingLine
  remaining : Rat
  err : Option BulkErr
deriving DecidableEq

/-- Main loop of `action_confirm_payment`
(sales_receipt_bulk_payment.py lines 176-358): per planned receipt, stop
when the payment is exhausted, pay `min(due - paid, remaining_payment)`
(skipping non-positive amounts), check the receivable currency against the
first method's payment account, require the "Bulk Receipt" transaction
source, allocate debits across the methods, write one aggregate credit to
the receivable account, update the receipt, and record the payment. -/
def confirm_loop (methods : List PaymentMethod) (pa : PaymentMethod)
    (trx_source_exists : Bool) :
    List BulkReceipt → Rat → List (Nat × Rat) → ConfirmOutcome
  | [], rp, _ => ⟨[], [], [], rp, none⟩
  | r :: rest, rp, by_account =>
      if rp ≤ 0 then ⟨r :: rest, [], [], rp, none⟩
      else
        let to_pay := min (r.due_amount - r.paid_amount) rp
        if to_pay ≤ 0 then
          let o := confirm_loop methods pa trx_source_exists rest rp by_account
          ⟨r :: o.receipts, o.payments, o.blines, o.remaining, o.err⟩
        else if r.recv_currency ≠ pa.currency then
          ⟨r :: rest, [], [], rp, some .currency_mismatch⟩
        else if trx_source_exists = false then
          ⟨r :: rest, [], [], rp, some .no_trx_source⟩
        else
          match alloc_dr r.recv_currency methods by_account to_pay with
          | .error e => ⟨r :: rest, [], [], rp, some e⟩
          | .ok (drs, by1) =>
              let cr_line : BookingLine := ⟨r.recv_account_id, .cr, 0, to_pay⟩
              let r1 := bulk_line_receipt_update r to_pay
              let o := confirm_loop methods pa trx_source_exists rest
                (rp - to_pay) by1
              ⟨r1 :: o.receipts, (r.id, to_pay) :: o.payments,
                drs ++ cr_line :: o.blines, o.remaining, o.err⟩

/-- `ReceiptBulkPayment.action_confirm_payment`
(sales_receipt_bulk_payment.py lines 163-365): silently return unless draft,
require a payment method, build the per-account capacity table, run the
loop, then raise the partial-payment error when an unused amount remains —
without undoing the applied allocations — and otherwise confirm. -/
def action_confirm_payment (st : DocState) (methods : List PaymentMethod)
    (amount_to_pay : Rat) (line_receipts : List BulkReceipt)
    (trx_source_exists : Bool) : ConfirmOutcome × DocState :=
  if st ≠ .draft then
    (⟨line_receipts, [], [], amount_to_pay, none⟩, st)
  else
    match methods with
    | [] => (⟨line_receipts, [], [], amount_to_pay, some .no_payment_method⟩, st)
    | pa :: _ =>
        let by0 := methods.foldl
          (fun acc m => set_stock acc m.account_id m.payment_amount) []
        let o := confirm_loop methods pa trx_source_exists line_receipts
          amount_to_pay by0
        match o.err with
        | some _ => (o, .draft)
        | none =>
            if 0 < o.remaining then
              ({ o with err := some (.partial_payment o.remaining) }, .draft)
            else (o, .confirmed)

/-- Pending receipts of the partner ordered oldest-receipt-date-first, as
fetched by `_onchange_lines` (sales_receipt_bulk_payment.py lines 104-106). -/
def pending_by_date (receipts : List BulkReceipt) : List BulkReceipt :=
  List.insertionSort (fun a b => a.receipt_date ≤ b.receipt_date)
    (receipts.filter (fun r => decide (r.payment_status = PayStatus.pending)))

/-- Planning loop of `_onchange_lines` (lines 107-130): greedily plan
`min(due - paid, remaining_payment)` per receipt, stopping when the amount
is exhausted and skipping receipts with nothing to pay. -/
def onchange_alloc : Rat → List BulkReceipt → List (BulkReceipt × Rat)
  | _, [] => []
  | amount, r :: rest =>
      if amount ≤ 0 then []
      else
        let to_pay := min (r.due_amount - r.paid_amount) amount
        if 0 < to_pay then (r, to_pay) :: onchange_alloc (amount - to_pay) rest
        else onchange_alloc amount rest

/-- `ReceiptBulkPayment._onchange_lines` (lines 89-130): plan the allocation
over the pending receipts sorted oldest-first. -/
def onchange_lines (amount : Rat) (receipts : List BulkReceipt) :
    List (BulkReceipt × Rat) :=
  onchange_alloc amount (pending_by_date receipts)

/-- Greedy allocation as the claim words it: process the receipts in the
given order, applying `min(remaining_payment, due - paid)` to each until the
amount is exhausted or receipts run out, producing the updated receipts, the
payment records, the booking lines (one debit on the single payment account
and one credit on the receivable per receipt), and the unused remainder. -/
def greedy_run (dr_account : Nat) :
    Rat → List BulkReceipt →
      List BulkReceipt × List (Nat × Rat) × List BookingLine × Rat
  | amount, [] => ([], [], [], amount)
  | amount, r :: rest =>
      if amount ≤ 0 then (r :: rest, [], [], amount)
      else
        let applied := min amount (r.due_amount - r.paid_amount)
        if applied ≤ 0 then
          let o := greedy_run dr_account amount rest
          (r :: o.1, o.2.1, o.2.2.1, o.2.2.2)
        else
          let o := greedy_run dr_account (amount - applied) rest
          (bulk_line_receipt_update r applied :: o.1,
            (r.id, applied) :: o.2.1,
            ⟨dr_account, .dr, applied, 0⟩ ::
              ⟨r.recv_account_id, .cr, 0, applied⟩ :: o.2.2.1,
            o.2.2.2)

/-- Total remaining due across a list of bulk receipts. -/
def total_remaining (rs : List BulkReceipt) : Rat :=
  (rs.map (fun r => r.due_amount - r.paid_amount)).sum

/-- With a single payment method of matching currency and sufficient
capacity, the debit-allocation loop emits one debit line for the full
`to_pay` and decrements the account capacity by it. -/
theorem alloc_dr_single (m : PaymentMethod) (cur : Nat) (cap tp : Rat)
    (hcur : m.currency = cur) (htp : 0 < tp) (hle : tp ≤ cap) :
    alloc_dr cur [m] [(m.account_id, cap)] tp =
      .ok ([⟨m.account_id, .dr, tp, 0⟩], [(m.account_id, cap - tp)]) := by
  unfold alloc_dr
  have havail : get_stock [(m.account_id, cap)] m.account_id = cap := by
    simp [get_stock, List.lookup]
  dsimp only
  rw [havail, min_eq_left hle]
  rw [if_neg (by linarith), if_neg (by simp [hcur])]
  have hset : set_stock [(m.account_id, cap)] m.account_id (cap - tp) =
      [(m.account_id, cap - tp)] := by
    simp [set_stock]
  rw [hset, if_pos (by linarith)]

/-- The confirmation loop with a single payment method whose per-account
capacity tracks the remaining payment is exactly the claim's greedy run: it
pays `min(remaining, due - paid)` per receipt in order, with no error. -/
theorem confirm_loop_single (m : PaymentMethod) :
    ∀ (rs : List BulkReceipt) (rp : Rat),
      (∀ r ∈ rs, r.recv_currency = m.currency) →
      confirm_loop [m] m true rs rp [(m.account_id, rp)] =
        ⟨(greedy_run m.account_id rp rs).1,
         (greedy_run m.account_id rp rs).2.1,
         (greedy_run m.account_id rp rs).2.2.1,
         (greedy_run m.account_id rp rs).2.2.2, none⟩ := by
  intro rs
  induction rs with
  | nil => intro rp _; rfl
  | cons r rest ih =>
      intro rp hcur
      unfold confirm_loop greedy_run
      by_cases hrp : rp ≤ 0
      · rw [if_pos hrp, if_pos hrp]
      · rw [if_neg hrp, if_neg hrp]
        dsimp only
        rw [min_comm rp (r.due_amount - r.paid_amount)]
        by_cases htp : min (r.due_amount - r.paid_amount) rp ≤ 0
        · rw [if_pos htp, if_pos htp]
          rw [ih rp (fun x hx => hcur x (List.mem_cons_of_mem r hx))]
        · rw [if_neg htp, if_neg htp]
          rw [if_neg (by simp [hcur r (List.mem_cons_self r rest)])]
          rw [if_neg (by simp)]
          have halloc := alloc_dr_single m r.recv_currency rp
            (min (r.due_amount - r.paid_amount) rp)
            (hcur r (List.mem_cons_self r rest)).symm
            (not_le.mp htp) (min_le_right _ _)
          rw [halloc]
          dsimp only
          rw [ih (rp - min (r.due_amount - r.paid_amount) rp)
            (fun x hx => hcur x (List.mem_cons_of_mem r hx))]
          rfl

/-- When the payment amount strictly exceeds the total remaining due and no
receipt is overpaid, the greedy run pays every receipt in full, records one
payment and one debit/credit pair per receipt that still owed something, and
leaves exactly the surplus unused. -/
theorem greedy_run_overpay (dr_account : Nat) :
    ∀ (rs : List BulkReceipt) (amount : Rat),
      (∀ r ∈ rs, r.paid_amount ≤ r.due_amount) →
      total_remaining rs < amount →
      greedy_run dr_account amount rs =
        (rs.map (fun r => if r.paid_amount < r.due_amount then
            bulk_line_receipt_update r (r.due_amount - r.paid_amount) else r),
         (rs.filter (fun r => decide (r.paid_amount < r.due_amount))).map
           (fun r => (r.id, r.due_amount - r.paid_amount)),
         (rs.filter (fun r => decide (r.paid_amount < r.due_amount))).flatMap
           (fun r => [⟨dr_account, .dr, r.due_amount - r.paid_amount, 0⟩,
             ⟨r.recv_account_id, .cr, 0, r.due_amount - r.paid_amount⟩]),
         amount - total_remaining rs) := by
  intro rs
  induction rs with
  | nil =>
      intro amount _ _
      simp [greedy_run, total_remaining]
  | cons r rest ih =>
      intro amount hpd htot
      have hr := hpd r (List.mem_cons_self r rest)
      have hrest_nonneg : 0 ≤ total_remaining rest := by
        apply List.sum_nonneg
        intro x hx
        rcases List.mem_map.mp hx with ⟨y, hy, rfl⟩
        have := hpd y (List.mem_cons_of_mem r hy)
        linarith
      have htot' : total_remaining (r :: rest) =
          (r.due_amount - r.paid_amount) + total_remaining rest := by
        simp [total_remaining]
      unfold greedy_run
      have hamt : ¬ amount ≤ 0 := by
        rw [htot'] at htot
        push_neg
        linarith
      rw [if_neg hamt]
      dsimp only
      by_cases hlt : r.paid_amount < r.due_amount
      · have happ : min amount (r.due_amount - r.paid_amount) =
            r.due_amount - r.paid_amount := by
          apply min_eq_right
          rw [htot'] at htot
          linarith
        rw [happ, if_neg (by push_neg; linarith)]
        rw [ih (amount - (r.due_amount - r.paid_amount))
          (fun x hx => hpd x (List.mem_cons_of_mem r hx))
          (by rw [htot'] at htot; linarith)]
        simp only [List.map_cons, List.filter_cons, List.flatMap_cons,
          decide_eq_true_eq, if_pos hlt, htot', Prod.mk.injEq]
        simp [sub_sub]
      · have hzero : r.due_amount - r.paid_amount = 0 := by
          have : r.due_amount ≤ r.paid_amount := le_of_not_lt hlt
          linarith
        have happ : min amount (r.due_amount - r.paid_amount) = 0 := by
          rw [hzero]
          exact min_eq_right (by linarith)
        rw [happ, if_pos le_rfl]
        rw [ih amount (fun x hx => hpd x (List.mem_cons_of_mem r hx))
          (by rw [htot'] at htot; linarith)]
        simp only [List.map_cons, List.filter_cons, decide_eq_true_eq,
          if_neg hlt, htot', hzero, Prod.mk.injEq]
        simp [sub_sub]

/-- The receipts referenced by the planned allocation lines form a sublist
of the receipts handed to the planner, in order. -/
theorem onchange_alloc_fst_sublist :
    ∀ (amount : Rat) (ls : List BulkReceipt),
      ((onchange_alloc amount ls).map Prod.fst).Sublist ls := by
  intro amount ls
  induction ls generalizing amount with
  | nil => simp [onchange_alloc]
  | cons r rest ih =>
      unfold onchange_alloc
      by_cases hamt : amount ≤ 0
      · rw [if_pos hamt]
        simp
      · rw [if_neg hamt]
        dsimp only
        by_cases htp : 0 < min (r.due_amount - r.paid_amount) amount
        · rw [if_pos htp]
          simp only [List.map_cons]
          exact (ih (amount - min (r.due_amount - r.paid_amount) amount)).cons₂ r
        · rw [if_neg htp]
          exact (ih amount).cons r

instance : IsTotal BulkReceipt
    (fun a b => a.receipt_date ≤ b.receipt_date) :=
  ⟨fun a b => Nat.le_total a.receipt_date b.receipt_date⟩

instance : IsTrans BulkReceipt
    (fun a b => a.receipt_date ≤ b.receipt_date) :=
  ⟨fun _ _ _ hab hbc => Nat.le_trans hab hbc⟩

/-- C4.  When the amount to pay strictly exceeds the partner's total
remaining due (with a single payment method carrying the full amount in the
matching currency, per the payment-method-total constraint), confirmation
applies every per-receipt allocation — receipts become fully paid, one
payment record and one debit/credit pair are written per receipt that owed
something — and then raises the partial-payment error with the unused
remainder, leaving the bulk payment in draft and rolling nothing back. -/
theorem c4_bulk_partial_error_not_rolled_back :
    ∀ (m : PaymentMethod) (rs : List BulkReceipt) (amount : Rat),
      m.payment_amount = amount →
      (∀ r ∈ rs, r.recv_currency = m.currency ∧
        r.paid_amount ≤ r.due_amount) →
      total_remaining rs < amount →
      action_confirm_payment .draft [m] amount rs true =
        (⟨rs.map (fun r => if r.paid_amount < r.due_amount then
             bulk_line_receipt_update r (r.due_amount - r.paid_amount) else r),
          (rs.filter (fun r => decide (r.paid_amount < r.due_amount))).map
            (fun r => (r.id, r.due_amount - r.paid_amount)),
          (rs.filter (fun r => decide (r.paid_amount < r.due_amount))).flatMap
            (fun r => [⟨m.account_id, .dr, r.due_amount - r.paid_amount, 0⟩,
              ⟨r.recv_account_id, .cr, 0, r.due_amount - r.paid_amount⟩]),
          amount - total_remaining rs,
          some (.partial_payment (amount - total_remaining rs))⟩,
         .draft) := by
  intro m rs amount hm hyps htot
  unfold action_confirm_payment
  rw [if_neg (by simp)]
  dsimp only
  simp only [List.foldl_cons, List.foldl_nil]
  have hby0 : set_stock [] m.account_id m.payment_amount =
      [(m.account_id, amount)] := by
    simp [set_stock, hm]
  rw [hby0]
  rw [confirm_loop_single m rs amount (fun r hr => (hyps r hr).1)]
  dsimp only
  rw [greedy_run_overpay m.account_id rs amount (fun r hr => (hyps r hr).2)
    htot]
  dsimp only
  rw [if_pos (by linarith)]

/-- Payment method for the C4 witness: account 50 in currency 5 carrying the
full 120. -/
def c4w_m : PaymentMethod := ⟨50, 5, 120⟩

/-- Older receipt due 50 for the C4 witness. -/
def c4w_r1 : BulkReceipt := ⟨1, 1, 50, 0, 50, .pending, 9, 5⟩

/-- Newer receipt due 50 for the C4 witness. -/
def c4w_r2 : BulkReceipt := ⟨2, 2, 50, 0, 50, .pending, 9, 5⟩

/-- Witness for C4 (the spec's Scenario E): paying 120 against two receipts
of 50 each leaves both fully paid, records both payments and their ledger
lines, and errors with an unused remainder of 20, still in draft. -/
theorem c4_bulk_partial_error_not_rolled_back_witness :
    total_remaining [c4w_r1, c4w_r2] = 100 ∧
    action_confirm_payment .draft [c4w_m] 120 [c4w_r1, c4w_r2] true =
      (⟨[⟨1, 1, 50, 50, 0, .paid, 9, 5⟩, ⟨2, 2, 50, 50, 0, .paid, 9, 5⟩],
        [(1, 50), (2, 50)],
        [⟨50, .dr, 50, 0⟩, ⟨9, .cr, 0, 50⟩, ⟨50, .dr, 50, 0⟩,
          ⟨9, .cr, 0, 50⟩],
        20, some (.partial_payment 20)⟩, .draft) := by
  have h := c4_bulk_partial_error_not_rolled_back c4w_m [c4w_r1, c4w_r2] 120
    rfl
    (by
      intro r hr
      fin_cases hr <;>
        exact ⟨by norm_num [c4w_r1, c4w_r2, c4w_m],
          by norm_num [c4w_r1, c4w_r2]⟩)
    (by norm_num [total_remaining, c4w_r1, c4w_r2])
  refine ⟨by norm_num [total_remaining, c4w_r1, c4w_r2], ?_⟩
  rw [h]
  norm_num [c4w_r1, c4w_r2, c4w_m, bulk_line_receipt_update,
    total_remaining]

/-- Payment method for the C7 witness: account 50 in currency 5 carrying the
full 80. -/
def c7w_m : PaymentMethod := ⟨50, 5, 80⟩

/-- Older receipt due 50 for the C7 witness. -/
def c7w_r1 : BulkReceipt := ⟨1, 1, 50, 0, 50, .pending, 9, 5⟩

/-- Newer receipt due 50 for the C7 witness. -/
def c7w_r2 : BulkReceipt := ⟨2, 2, 50, 0, 50, .pending, 9, 5⟩

/-- C7.  The planned allocation lines are ordered
oldest-receipt-date-first; the confirmation loop (single matching payment
method tracking the remaining amount) is exactly the greedy run that applies
`min(remaining_payment, due - paid)` per receipt until the amount is
exhausted or receipts run out; and in particular a payment of 80 against two
receipts of 50 due each — given newest-first — plans oldest-first (50 then
30), fully pays the older receipt, partially pays the newer one with 30,
leaves no remainder, and raises no error. -/
theorem c7_bulk_allocation_oldest_first_greedy :
    (∀ (amount : Rat) (receipts : List BulkReceipt),
      List.Pairwise (fun a b => a.1.receipt_date ≤ b.1.receipt_date)
        (onchange_lines amount receipts)) ∧
    (∀ (m : PaymentMethod) (rs : List BulkReceipt) (rp : Rat),
      (∀ r ∈ rs, r.recv_currency = m.currency) →
      confirm_loop [m] m true rs rp [(m.account_id, rp)] =
        ⟨(greedy_run m.account_id rp rs).1,
         (greedy_run m.account_id rp rs).2.1,
         (greedy_run m.account_id rp rs).2.2.1,
         (greedy_run m.account_id rp rs).2.2.2, none⟩) ∧
    onchange_lines 80 [c7w_r2, c7w_r1] = [(c7w_r1, 50), (c7w_r2, 30)] ∧
    action_confirm_payment .draft [c7w_m] 80 [c7w_r1, c7w_r2] true =
      (⟨[⟨1, 1, 50, 50, 0, .paid, 9, 5⟩, ⟨2, 2, 50, 30, 20, .pending, 9, 5⟩],
        [(1, 50), (2, 30)],
        [⟨50, .dr, 50, 0⟩, ⟨9, .cr, 0, 50⟩, ⟨50, .dr, 30, 0⟩,
          ⟨9, .cr, 0, 30⟩],
        0, none⟩, .confirmed) := by
  refine ⟨?_, fun m rs rp h => confirm_loop_single m rs rp h, ?_, ?_⟩
  · intro amount receipts
    have hsorted : List.Sorted (fun a b => a.receipt_date ≤ b.receipt_date)
        (pending_by_date receipts) := List.sorted_insertionSort _ _
    have hsub := onchange_alloc_fst_sublist amount (pending_by_date receipts)
    have hp := List.Pairwise.sublist hsub hsorted
    unfold onchange_lines
    exact List.Pairwise.of_map Prod.fst (fun a b h => h) hp
  · norm_num [onchange_lines, pending_by_date, List.insertionSort,
      List.orderedInsert, onchange_alloc, c7w_r1, c7w_r2]
  · norm_num [action_confirm_payment, confirm_loop, alloc_dr,
      bulk_line_receipt_update, get_stock, set_stock, List.lookup,
      c7w_m, c7w_r1, c7w_r2]

/-- Witness for C7: the ordering fact at the Scenario D plan and the
loop/greedy equivalence applied to a concrete receipt list. -/
theorem c7_bulk_allocation_oldest_first_greedy_witness :
    List.Pairwise (fun a b => a.1.receipt_date ≤ b.1.receipt_date)
      (onchange_lines 80 [c7w_r2, c7w_r1]) ∧
    confirm_loop [c7w_m] c7w_m true [c7w_r1] 80 [(50, 80)] =
      ⟨(greedy_run 50 80 [c7w_r1]).1, (greedy_run 50 80 [c7w_r1]).2.1,
       (greedy_run 50 80 [c7w_r1]).2.2.1, (greedy_run 50 80 [c7w_r1]).2.2.2,
       none⟩ :=
  ⟨c7_bulk_allocation_oldest_first_greedy.1 80 [c7w_r2, c7w_r1],
   c7_bulk_allocation_oldest_first_greedy.2.1 c7w_m [c7w_r1] 80
     (by
       intro r hr
       fin_cases hr
       norm_num [c7w_r1, c7w_m])⟩

/-- Inversion of the commission check: if it passes and the commission
amount is positive, the commission account exists in the expected
currency. -/
theorem check_commission_account_ok (expected : Nat) (l : SaleOrderLine)
    (h : check_commission_account expected l = .ok ()) :
    0 < l.commission_amount →
      ∃ a, l.product.sales_account_id = some a ∧ a.currency = expected := by
  intro hc
  unfold check_commission_account at h
  rw [if_pos hc] at h
  cases hsa : l.product.sales_account_id with
  | none => rw [hsa] at h; cases h
  | some a =>
      rw [hsa] at h
      dsimp only at h
      by_cases hcur : a.currency = expected
      · exact ⟨a, rfl, hcur⟩
      · rw [if_pos (by simpa using hcur)] at h
        cases h

/-- Inversion of the discount check: if it passes and the discount amount is
positive, the discount account exists in the expected currency. -/
theorem check_discount_account_ok (expected : Nat) (l : SaleOrderLine)
    (h : check_discount_account expected l = .ok ()) :
    0 < l.discount_amount →
      ∃ a, l.product.sales_discount_id = some a ∧ a.currency = expected := by
  intro hd
  unfold check_discount_account at h
  rw [if_pos hd] at h
  cases hsd : l.product.sales_discount_id with
  | none => rw [hsd] at h; cases h
  | some a =>
      rw [hsd] at h
      dsimp only at h
      by_cases hcur : a.currency = expected
      · exact ⟨a, rfl, hcur⟩
      · rw [if_pos (by simpa using hcur)] at h
        cases h

/-- Inversion of the asset check: if it passes, the asset account exists in
the expected currency. -/
theorem check_asset_account_ok (expected : Nat) (l : SaleOrderLine)
    (h : check_asset_account expected l = .ok ()) :
    ∃ a, l.product.asset_account_id = some a ∧ a.currency = expected := by
  unfold check_asset_account at h
  cases ha : l.product.asset_account_id with
  | none => rw [ha] at h; cases h
  | some a =>
      rw [ha] at h
      dsimp only at h
      by_cases hcur : a.currency = expected
      · exact ⟨a, rfl, hcur⟩
      · rw [if_pos (by simpa using hcur)] at h
        cases h

/-- Inversion of the income check: if it passes, the income account exists
in the expected currency. -/
theorem check_income_account_ok (expected : Nat) (l : SaleOrderLine)
    (h : check_income_account expected l = .ok ()) :
    ∃ a, l.product.income_account_id = some a ∧ a.currency = expected := by
  unfold check_income_account at h
  cases ha : l.product.income_account_id with
  | none => rw [ha] at h; cases h
  | some a =>
      rw [ha] at h
      dsimp only at h
      by_cases hcur : a.currency = expected
      · exact ⟨a, rfl, hcur⟩
      · rw [if_pos (by simpa using hcur)] at h
        cases h

/-- Inversion of the full per-line validation: when it passes, the asset and
income accounts exist and match the expected currency, and so do the
commission and discount accounts whenever their amounts are positive. -/
theorem check_line_accounts_ok (expected : Nat) (l : SaleOrderLine)
    (h : check_line_accounts expected l = .ok ()) :
    (∃ a, l.product.asset_account_id = some a ∧ a.currency = expected) ∧
    (∃ a, l.product.income_account_id = some a ∧ a.currency = expected) ∧
    (0 < l.commission_amount →
      ∃ a, l.product.sales_account_id = some a ∧ a.currency = expected) ∧
    (0 < l.discount_amount →
      ∃ a, l.product.sales_discount_id = some a ∧ a.currency = expected) := by
  unfold check_line_accounts at h
  simp only [bind, Except.bind] at h
  cases h1 : check_commission_account expected l with
  | error e => rw [h1] at h; cases h
  | ok u1 =>
      rw [h1] at h
      cases h2 : check_discount_account expected l with
      | error e => rw [h2] at h; cases h
      | ok u2 =>
          rw [h2] at h
          cases h3 : check_asset_account expected l with
          | error e => rw [h3] at h; cases h
          | ok u3 =>
              rw [h3] at h
              have hio : check_income_account expected l = .ok () := by
                cases hu : check_income_account expected l with
                | error e => rw [hu] at h; cases h
                | ok u => cases u; rfl
              exact ⟨check_asset_account_ok expected l (by cases u3; exact h3),
                check_income_account_ok expected l hio,
                check_commission_account_ok expected l
                  (by cases u1; exact h1),
                check_discount_account_ok expected l
                  (by cases u2; exact h2)⟩

/-- Every line posted by a successful run of the posting loop passed its
per-line validation. -/
theorem book_lines_go_checks (expected recvId : Nat) (rate : Rat) :
    ∀ (ls : List SaleOrderLine) (out : List BookingLine),
      book_lines_go expected recvId rate ls = .ok out →
      ∀ l ∈ ls, check_line_accounts expected l = .ok () := by
  intro ls
  induction ls with
  | nil => intro out h l hl; cases hl
  | cons x xs ih =>
      intro out h l hl
      simp only [book_lines_go, bind, Except.bind] at h
      cases hchk : check_line_accounts expected x with
      | error e => rw [hchk] at h; cases h
      | ok u =>
          rw [hchk] at h
          cases hrec : book_lines_go expected recvId rate xs with
          | error e => rw [hrec] at h; cases h
          | ok rest =>
              rcases List.mem_cons.mp hl with rfl | hxs
              · cases u; exact hchk
              · exact ih rest hrec l hxs

/-- C9 (amended).  When posting a sale order succeeds, every line's asset
and income account exists and matches the expected currency derived from the
salesperson's receivable account, and so do the commission and discount
accounts whenever the line carries a positive commission or discount amount
— equivalently, any mismatch among those accounts aborts the posting with a
validation error.  The COGS account, however, is referenced by the booking
without any existence or currency check (see the counterexample). -/
theorem c9_posting_account_checks_amended :
    ∀ (o : SaleOrder) (out : List BookingLine) (recv : Account),
      o.account_receivable = some recv →
      book_accounting_entry o = .ok out →
      ∀ l ∈ o.order_lines,
        (∃ a, l.product.asset_account_id = some a ∧
          a.currency = recv.currency) ∧
        (∃ a, l.product.income_account_id = some a ∧
          a.currency = recv.currency) ∧
        (0 < l.commission_amount →
          ∃ a, l.product.sales_account_id = some a ∧
            a.currency = recv.currency) ∧
        (0 < l.discount_amount →
          ∃ a, l.product.sales_discount_id = some a ∧
            a.currency = recv.currency) := by
  intro o out recv hrecv h l hl
  unfold book_accounting_entry at h
  rw [hrecv] at h
  dsimp only at h
  split at h
  · exact check_line_accounts_ok recv.currency l
      (book_lines_go_checks recv.currency recv.id o.rate o.order_lines out
        h l hl)
  · cases h

/-- Product for the C9 counterexample: its COGS account is in currency 6
while everything validated is in the expected currency 5. -/
def c9x_product : Product where
  id := 7
  cost := 3
  commission := 0
  discount := 0
  is_sales_commissionable := false
  is_quantity_discount := false
  bom_currency_usd := false
  account_cogs_id := some ⟨1, 6⟩
  asset_account_id := some ⟨2, 5⟩
  income_account_id := some ⟨3, 5⟩
  sales_account_id := none
  sales_discount_id := none

/-- Order line for the C9 counterexample. -/
def c9x_line : SaleOrderLine where
  product := c9x_product
  quantity := 1
  price_unit := 10
  discount_quantity := 0
  discount_amount := 0
  commission_amount := 0
  subtotal := 10

/-- Sale order for the C9 counterexample: the expected currency (from the
receivable account) is 5. -/
def c9x_order : SaleOrder where
  account_receivable := some ⟨9, 5⟩
  rate := 1
  trx_source_exists := true
  order_lines := [c9x_line]

/-- Booking lines posted for `c9x_order`. -/
def c9x_out : List BookingLine :=
  [⟨1, .dr, 3, 0⟩, ⟨2, .cr, 0, 3⟩, ⟨9, .dr, 10, 0⟩, ⟨3, .cr, 0, 10⟩]

/-- C9 counterexample: the product's COGS account currency (6) disagrees
with the expected currency (5), yet posting the order succeeds with no
validation error and even books the cost against that account — the COGS
account is never checked, refuting the claim that every referenced account
is validated. -/
theorem c9_counterexample :
    c9x_product.account_cogs_id = some ⟨1, 6⟩ ∧
    c9x_order.account_receivable = some ⟨9, 5⟩ ∧
    (6 : Nat) ≠ 5 ∧
    book_accounting_entry c9x_order = .ok c9x_out := by
  refine ⟨rfl, rfl, by norm_num, ?_⟩
  norm_num [c9x_order, c9x_line, c9x_product, c9x_out, book_accounting_entry,
    book_lines_go, check_line_accounts, check_commission_account,
    check_discount_account, check_asset_account, check_income_account,
    sale_line_booking_lines, product_cost_amount, acctId, bind, Except.bind,
    pure, Except.pure]

/-- Witness for C9 (amended): the checked-accounts theorem applied to the
concrete order whose posting succeeds. -/
theorem c9_posting_account_checks_amended_witness :
    book_accounting_entry c1w_order = .ok c1w_out ∧
    ((∃ a, c1w_line.product.asset_account_id = some a ∧ a.currency = 5) ∧
     (∃ a, c1w_line.product.income_account_id = some a ∧ a.currency = 5) ∧
     (0 < c1w_line.commission_amount →
       ∃ a, c1w_line.product.sales_account_id = some a ∧ a.currency = 5) ∧
     (0 < c1w_line.discount_amount →
       ∃ a, c1w_line.product.sales_discount_id = some a ∧ a.currency = 5)) := by
  have h1 : book_accounting_entry c1w_order = .ok c1w_out := by
    norm_num [c1w_order, c1w_line, c1w_product, c1w_out, book_accounting_entry,
      book_lines_go, check_line_accounts, check_commission_account,
      check_discount_account, check_asset_account, check_income_account,
      sale_line_booking_lines, product_cost_amount, acctId, bind, Except.bind,
      pure, Except.pure]
  exact ⟨h1, c9_posting_account_checks_amended c1w_order c1w_out ⟨9, 5⟩ rfl h1
    c1w_line (by simp [c1w_order])⟩

end Idil
